import Mathlib

/-!
# Tanium-OSS/terror: error chains, compact and detailed rendering, code and root lookup

A shallow embedding of `errors.go`, `wrapinto.go` and `closer.go` (with
`const.go` for the constant error).

* A value of Go's `error` interface is a `GoError`: `nil`, a value of one of
  the two types of the package (`TError`, `codeError`), or a foreign error.
  A foreign error is known by its `Error()` text and, when it has an
  `Unwrap() error` method, by what that returns (`errors.New`, `Const`,
  `fmt.Errorf`, an aggregate of the multi-error package). What the packages
  `fmt` and `errors` do with a foreign value through its own methods (`Format`;
  `As`, `Is`, `Unwrap() []error`) and through its type (`==`, comparability)
  is not fixed by the model: the functions that depend on it take it as an
  argument (`fprintf`, `foreignAs`, `foreignIs`, `foreignComparable`, `goEq`).
* Writing to an `io.Writer` / `fmt.State` is modelled by the text written.
* `fmt.Sprintf(format, args...)` is taken as already evaluated: constructors
  receive the formatted message.
* `capture(1)` reads the run-time stack; constructors receive its result, the
  `Location` of the call site, as an argument.
* The `int` fields (`Location.Line`, `codeError.code`) are only stored and
  printed, never computed with; they are integers.
* The run-time stack is an explicit list of frames; the functions named
  `...Call` are the constructors run on such a stack, with `capture` and
  `cleanFuncName` as in the source. A run-time panic is the result `none`.
* The multi-error aggregator is an external package; an error slot it writes
  is the list of the errors appended so far. A closer is its `Close` method, a
  function from its state to the returned error and the state afterwards.
-/

namespace Terror

/-- Location describes a single stack frame position (`type Location struct`). -/
structure Location where
  File : String
  Line : Int
  Function : String
  deriving DecidableEq, Repr

/-- The zero value `Location{}`: the "no location" sentinel. -/
def Location.zero : Location := ⟨"", 0, ""⟩

/-- `Location.String`: `fmt.Sprintf("%s:%d (%s)", l.File, l.Line, l.Function)`. -/
def Location.String (l : Location) : String :=
  l.File ++ ":" ++ toString l.Line ++ " (" ++ l.Function ++ ")"

/--
Values of the Go interface `error`, as far as this package can tell them apart.

* `nil`: the nil interface value (no error).
* `foreign text`: an error of another package whose `Error()` is `text`, with
  no `Unwrap() error` and no `Location` method (`errors.New(text)`,
  `Const(text)`, an aggregate of the multi-error package).
* `wrapper text inner`: an error of another package whose `Error()` is `text`
  and whose `Unwrap() error` returns `inner`, with no `Location` method
  (`fmt.Errorf("... %w", inner)`, `SomeCustomErrorWrapper`).
* What a foreign value does through a `Format`, `As` or `Is` method, through
  `Unwrap() []error`, or under `==`, is an argument of the functions that
  depend on it.
* `terror base msg loc`: the struct `TError{base, msg, loc}`.
* `coded base code`: the struct `codeError{base, code}`.
-/
inductive GoError where
  | nil : GoError
  | foreign (text : String) : GoError
  | wrapper (text : String) (inner : GoError) : GoError
  | terror (base : GoError) (msg : String) (loc : Location) : GoError
  | coded (base : GoError) (code : Int) : GoError
  deriving DecidableEq, Repr

open GoError

/-! ## Constructors -/

/-- `Wrap(err, format, args...)`, with `msg = fmt.Sprintf(format, args...)` and
`loc = capture(1)`. -/
def Wrap (err : GoError) (msg : String) (loc : Location) : GoError :=
  if err = nil then nil
  else terror err msg loc

/-- `Annotate(err)`, with `loc = capture(1)`; the message field keeps its zero
value, the empty string. -/
def Annotate (err : GoError) (loc : Location) : GoError :=
  if err = nil then nil
  else terror err "" loc

/-- `WrapWithCode(err, code, format, args...)`. -/
def WrapWithCode (err : GoError) (code : Int) (msg : String) (loc : Location) : GoError :=
  if err = nil then nil
  else coded (terror err msg loc) code

/-- `New(format, args...)`. -/
def New (msg : String) (loc : Location) : GoError :=
  terror nil msg loc

/-- `NewWithCode(code, format, args...)`. -/
def NewWithCode (code : Int) (msg : String) (loc : Location) : GoError :=
  coded (terror nil msg loc) code

/-! ## Unwrapping -/

/-- `errors.Unwrap(err)`: the result of the value's `Unwrap() error` method, and
nil when it has none (`TError.Unwrap`, `codeError.Unwrap` return `e.base`). -/
def Unwrap : GoError → GoError
  | nil => nil
  | foreign _ => nil
  | wrapper _ inner => inner
  | terror base _ _ => base
  | coded base _ => base

/-! ## Compact rendering -/

/--
`err.Error()`.

* `TError.Error`: the three cases of the source, in its order.
* `codeError.Error`: `e.base.Error()`.
* Calling `Error` on the nil interface panics in Go; the source never does it
  (`TError.Error` tests `e.base == nil` first, and the constructors never put
  nil under a `codeError`). The value `""` given here is never used by them.
-/
def GoError.Error : GoError → String
  | nil => ""
  | foreign text => text
  | wrapper text _ => text
  | terror base msg _ =>
    if base = nil then msg
    else if msg = "" then base.Error
    else msg ++ ": " ++ base.Error
  | coded base _ => base.Error

/-! ## Detailed rendering -/

/-- The condition `ourError, ok := err.(TError); ok && ourError.msg == ""`: the
value is a `TError` with an empty message. -/
def isTErrorNoMsg : GoError → Bool
  | terror _ msg _ => decide (msg = "")
  | _ => false

/--
The body of `TError.detailedError`, given in `baseV` the text that
`fmt.Fprintf(w, "%+v", e.base)` writes. The text written so far (`w1`, `w2`)
and the variable `sep` (`sep0`, `sep1`, `sep2`) are followed through the
statements of the source in order.
-/
def detailedErrorWith (base : GoError) (msg : String) (loc : Location) (baseV : String) : String :=
  let sep0 := ""
  let w1 := if msg ≠ "" then msg else ""
  let sep1 := if msg ≠ "" then "\n" else sep0
  let w2 := if loc ≠ Location.zero then w1 ++ sep1 ++ (" --- at " ++ loc.String ++ " ---") else w1
  let sep2 := if loc ≠ Location.zero then "\n" else sep1
  if isTErrorNoMsg base then
    w2 ++ sep2 ++ baseV
  else if base ≠ nil then
    w2 ++ sep2 ++ (if sep2 ≠ "" then "caused by " else "") ++ baseV
  else
    w2

/--
The text written by `fmt.Fprintf(w, "%+v", err)` for an error operand.

* nil operand: `fmt` prints `<nil>` for the verb `v`.
* foreign operand: `fprintf "%+v" err`, the text that package `fmt` writes for
  the directive on that value: what its own `Format` method writes when it has
  one (an aggregate of the multi-error package prints its multi-line form),
  and its `Error()` text when it has none.
* `TError`: `fmt` calls `Format(f, 'v')`, which calls `detailedError`.
* `codeError`: `fmt` calls `codeError.Format(f, 'v')`, which hands the same
  state and verb to the base's `Format` when it has one, and otherwise prints
  the base with the rebuilt format string, `%+v` again.
-/
def fmtPlusV (fprintf : String → GoError → String) : GoError → String
  | nil => "<nil>"
  | foreign text => fprintf "%+v" (foreign text)
  | wrapper text inner => fprintf "%+v" (wrapper text inner)
  | terror base msg loc => detailedErrorWith base msg loc (fmtPlusV fprintf base)
  | coded base _ => fmtPlusV fprintf base

/-- What `fmt` writes, for the verbs `v` and `s`, on an error operand that has
no `Format` method: its `Error()` text. -/
def fprintfError : String → GoError → String :=
  fun _ err => err.Error

/-- `TError.detailedError`: the multi-line rendering of `TError{base, msg, loc}`. -/
def TError.detailedError (fprintf : String → GoError → String) (base : GoError) (msg : String)
    (loc : Location) : String :=
  detailedErrorWith base msg loc (fmtPlusV fprintf base)

/-- The part of `fmt.State` that `Format` can query: the flags `-+# 0`, the
width and the precision. -/
structure FmtState where
  minus : Bool
  plus : Bool
  sharp : Bool
  space : Bool
  zero : Bool
  width : Option Nat
  precision : Option Nat
  deriving DecidableEq, Repr

/-- `TError.Format(f, c)`: the text written to `f`. -/
def TError.Format (fprintf : String → GoError → String) (base : GoError) (msg : String)
    (loc : Location) (_f : FmtState) (c : Char) : String :=
  if c = 'v' then TError.detailedError fprintf base msg loc
  else (terror base msg loc).Error

/-! ## Code lookup -/

/--
`errors.As(err, &wrapper)` for a target of type `codeError`: walks the chain
from `err`, stops at the first value whose type is `codeError` and stores it
(here: returns its two fields), and reports failure when the chain ends.

At a foreign value `errors.As` first asks the value itself: `foreignAs v` is
what it finds there, through an `As` method of `v` or, when `v` has an
`Unwrap() []error` method, in the errors that `v` holds (an aggregate of the
multi-error package); it is `none` for a value with neither. Then it follows
`Unwrap() error`.
-/
def errorsAsCodeError (foreignAs : GoError → Option (GoError × Int)) :
    GoError → Option (GoError × Int)
  | nil => none
  | foreign text => foreignAs (foreign text)
  | wrapper text inner =>
    match foreignAs (wrapper text inner) with
    | some w => some w
    | none => errorsAsCodeError foreignAs inner
  | terror base _ _ => errorsAsCodeError foreignAs base
  | coded base code => some (base, code)

/-- The foreign errors with no `As` method and no `Unwrap() []error` method:
`errors.As` finds nothing in them (`errors.New`, `Const`, `fmt.Errorf`). -/
def noAs : GoError → Option (GoError × Int) :=
  fun _ => none

/-- A `foreignAs` for a foreign value `v` in which `errors.As` finds the coded
error `found` (an aggregate that holds it); it finds nothing in the other
foreign values. -/
def asWith (v : GoError) (found : GoError × Int) : GoError → Option (GoError × Int) :=
  fun err => if err = v then some found else none

/-- `GetCode(err)`. -/
def GetCode (foreignAs : GoError → Option (GoError × Int)) (err : GoError) : Int :=
  match errorsAsCodeError foreignAs err with
  | none => 0
  | some w => w.2

/-! ## Root lookup -/

/-- `TError.Location`, the only `Location()` method of the package: the
location of a value that has the method, `none` for a value that has not. -/
def GoError.Location? : GoError → Option Location
  | terror _ _ loc => some loc
  | _ => none

/-- The type assertion `err.(Error)` succeeds: `err` is an `error` with a
`Location()` method. -/
def isError (err : GoError) : Bool := err.Location?.isSome

/--
The `for` loop of `RootError`, started at `err` with the candidate
`deepestError`: while `err != nil`, a value that passes `err.(Error)` replaces
the candidate, and `err` moves to `errors.Unwrap(err)`. The recursion is
written on the shape of `err`, with `errors.Unwrap(err)` spelled out per case
(`rootLoop_step` states the loop step with `Unwrap` itself).
-/
def rootLoop : GoError → GoError → GoError
  | nil, deepestError => deepestError
  | foreign _, deepestError => deepestError
  | wrapper _ inner, deepestError => rootLoop inner deepestError
  | terror base msg loc, _ => rootLoop base (terror base msg loc)
  | coded base _, deepestError => rootLoop base deepestError

/-- `RootError(e)`; the nil result is `GoError.nil`. -/
def RootError (e : GoError) : GoError :=
  let deepestError := if isError e then e else nil
  rootLoop (Unwrap e) deepestError

/-! ## Notions used to state the properties -/

/-- The unwrap chain of `e`: `e`, `errors.Unwrap(e)`, ... up to the last non-nil
value (`unwrapChain_step` states it with `Unwrap` itself). -/
def unwrapChain : GoError → List GoError
  | nil => []
  | foreign text => [foreign text]
  | wrapper text inner => wrapper text inner :: unwrapChain inner
  | terror base msg loc => terror base msg loc :: unwrapChain base
  | coded base code => coded base code :: unwrapChain base

/-- The value is a `codeError`. -/
def isCoded : GoError → Bool
  | coded _ _ => true
  | _ => false

/-- Successive `Wrap` calls: `layers` lists the message and the call-site
location of each call, the first (innermost) call first. -/
def wrapAll (e : GoError) (layers : List (String × Location)) : GoError :=
  layers.foldl (fun acc layer => Wrap acc layer.1 layer.2) e

/-- The innermost value of the unwrap chain of `e` that exposes a Location, nil
when there is none. -/
def innermostLocated (e : GoError) : GoError :=
  (((unwrapChain e).filter isError).getLast?).getD nil

/-- The marker text that `detailedError` writes before a cause. -/
def causedBy : String := "caused by "

/-- The number of positions of the text `s` at which `pat` starts. -/
def countOcc (pat : List Char) : List Char → Nat
  | [] => 0
  | c :: s => (if pat.isPrefixOf (c :: s) then 1 else 0) + countOcc pat s

/-- The number of occurrences of the string `pat` in the string `s`. -/
def occurrences (pat s : String) : Nat := countOcc pat.data s.data

/-- The chains of claim C5: chain nodes that each carry a captured location,
ending in a root (a node with no cause) or in a foreign leaf, with no message
and no leaf text (the `Error()` of the leaf) containing "caused by ". -/
def markerFreeChain : GoError → Bool
  | nil => false
  | foreign text => occurrences causedBy text == 0
  | wrapper text _ => occurrences causedBy text == 0
  | terror base msg loc =>
    decide (loc ≠ Location.zero) && occurrences causedBy msg == 0 &&
      (decide (base = nil) || markerFreeChain base)
  | coded _ _ => false

/-- No file name and no function name of a location of the chain contains
"caused by ". -/
def markerFreeLocations : GoError → Bool
  | terror base _ loc =>
    occurrences causedBy loc.File == 0 && occurrences causedBy loc.Function == 0 &&
      markerFreeLocations base
  | _ => true

/-- What `%+v` prints for the foreign leaf of the chain, if it has one, does not
contain "caused by ". -/
def markerFreeLeaf (fprintf : String → GoError → String) : GoError → Bool
  | foreign text => occurrences causedBy (fprintf "%+v" (foreign text)) == 0
  | wrapper text inner => occurrences causedBy (fprintf "%+v" (wrapper text inner)) == 0
  | terror base _ _ => markerFreeLeaf fprintf base
  | _ => true

/-- The number of transitions of the chain from a node into a cause that is not
a pure marker: the cause is there and is not an empty-message chain node. -/
def visibleTransitions : GoError → Nat
  | terror base _ _ =>
    (if base ≠ nil ∧ isTErrorNoMsg base = false then 1 else 0) + visibleTransitions base
  | _ => 0

/-- The location line of `detailedError`: `" --- at %s ---"` on `Location.String`. -/
def locationLine (loc : Location) : String := " --- at " ++ loc.String ++ " ---"

/-! ## Matching by identity -/

/-- `reflectlite.TypeOf(target).Comparable()`: the struct types `TError` and
`codeError` are comparable; for a foreign value it is `foreignComparable`. -/
def typeComparable (foreignComparable : GoError → Bool) : GoError → Bool
  | terror _ _ _ => true
  | coded _ _ => true
  | v => foreignComparable v

/-- The first test of the loop of `errors.Is`, `targetComparable && err == target`.
`goEq err target` is the comparison `err == target` of the two interface
values as Go evaluates it: `some b` when it gives `b`, `none` when it panics
(two values of one uncomparable type are compared). It is not evaluated when
the type of the target is not comparable. -/
def isEqualStep (targetComparable : Bool) (goEq : GoError → GoError → Option Bool)
    (err target : GoError) : Option Bool :=
  if targetComparable then goEq err target else some false

/--
The loop of `errors.Is` (`is` in package `errors`) for a non-nil target; the
result is `none` when the comparison panics.

On each value: `targetComparable && err == target` succeeds; otherwise an `Is`
method of the value that accepts the target succeeds; otherwise `err` moves to
the result of its `Unwrap() error` method, and the loop fails when that is nil.
`TError` and `codeError` have no `Is` method. `foreignIs v target` is what a
foreign value contributes by its own means: its `Is` method and, for a value
with `Unwrap() []error`, the search in the errors it holds; it is false for a
value with neither.
-/
def errorsIsLoop (targetComparable : Bool) (goEq : GoError → GoError → Option Bool)
    (foreignIs : GoError → GoError → Bool) (target : GoError) : GoError → Option Bool
  | nil => some false
  | foreign text =>
    match isEqualStep targetComparable goEq (foreign text) target with
    | none => none
    | some true => some true
    | some false => some (foreignIs (foreign text) target)
  | wrapper text inner =>
    match isEqualStep targetComparable goEq (wrapper text inner) target with
    | none => none
    | some true => some true
    | some false =>
      if foreignIs (wrapper text inner) target then some true
      else errorsIsLoop targetComparable goEq foreignIs target inner
  | terror base msg loc =>
    match isEqualStep targetComparable goEq (terror base msg loc) target with
    | none => none
    | some true => some true
    | some false => errorsIsLoop targetComparable goEq foreignIs target base
  | coded base code =>
    match isEqualStep targetComparable goEq (coded base code) target with
    | none => none
    | some true => some true
    | some false => errorsIsLoop targetComparable goEq foreignIs target base

/-- `errors.Is(err, target)`; `none` when it panics. -/
def errorsIs (foreignComparable : GoError → Bool) (goEq : GoError → GoError → Option Bool)
    (foreignIs : GoError → GoError → Bool) (err target : GoError) : Option Bool :=
  if err = nil ∨ target = nil then some (decide (err = target))
  else errorsIsLoop (typeComparable foreignComparable target) goEq foreignIs target err

/-- A `goEq` for the examples: no comparison panics, and two values are equal
exactly when they are the same value. -/
def eqByValue : GoError → GoError → Option Bool := fun a b => some (decide (a = b))

/-- A `foreignIs` for foreign values that have no `Is` method and no
`Unwrap() []error` method. -/
def noIs : GoError → GoError → Bool := fun _ _ => false

/-! ## Wrapping into an error slot -/

/-- `WrapInto(pErr, format, args...)`: the contents of the slot `*pErr` after
the call, from its contents `pErr` before it, with
`msg = fmt.Sprintf(format, args...)` and `loc = capture(1)`. -/
def WrapInto (pErr : GoError) (msg : String) (loc : Location) : GoError :=
  if pErr = nil then pErr
  else terror pErr msg loc

/-! ## Formatting a coded error -/

/-- `origFormatString(f, c)`: the directive rebuilt from the state, the flags in
the order of the string `"-+# 0"`, then the width, the precision and the verb. -/
def origFormatString (f : FmtState) (c : Char) : String :=
  let s0 := "%"
  let s1 := if f.minus then s0 ++ "-" else s0
  let s2 := if f.plus then s1 ++ "+" else s1
  let s3 := if f.sharp then s2 ++ "#" else s2
  let s4 := if f.space then s3 ++ " " else s3
  let s5 := if f.zero then s4 ++ "0" else s4
  let s6 := match f.width with
    | some width => s5 ++ toString width
    | none => s5
  let s7 := match f.precision with
    | some precision => s6 ++ "." ++ toString precision
    | none => s6
  s7 ++ String.singleton c

/--
The `Format(f, c)` method of an error value: the text it writes, and `none`
for a value with no such method (the type assertion `.(fmt.Formatter)` fails).

* `TError.Format`.
* `codeError.Format`: the base's `Format(f, c)` when the base has the method,
  and otherwise `fmt.Fprintf(f, origFormatString(f, c), e.base)`.

`fprintf format v` is the text that package `fmt` writes for the directive
`format` on a foreign operand `v`: what the `Format` method of `v` writes when
it has one, and the default of `fmt` otherwise. For a foreign base both
branches of `codeError.Format` write that text, so the result `none` of the
foreign cases leads to it.
-/
def GoError.Format? (fprintf : String → GoError → String) (f : FmtState) (c : Char) :
    GoError → Option String
  | terror base msg loc => some (TError.Format fprintf base msg loc f c)
  | coded base _ =>
    match GoError.Format? fprintf f c base with
    | some out => some out
    | none => some (fprintf (origFormatString f c) base)
  | _ => none

/-- The state of a directive with no flag, width or precision: `%s`, `%v`, and
the operands of `fmt.Print`, `fmt.Println`. -/
def FmtState.plain : FmtState := ⟨false, false, false, false, false, none, none⟩

/-- `fmt.Println(err)` on a `TError`: `fmt` formats each operand with the verb
`v` and no flag, through the operand's `Format` method, and ends the line. -/
def fmtPrintln (fprintf : String → GoError → String) (base : GoError) (msg : String)
    (loc : Location) : String :=
  TError.Format fprintf base msg loc FmtState.plain 'v' ++ "\n"

/-- `fmt.Printf("%s", err)` on a `TError`: `fmt` calls `Format(f, 's')`. -/
def fmtPrintfS (fprintf : String → GoError → String) (base : GoError) (msg : String)
    (loc : Location) : String :=
  TError.Format fprintf base msg loc FmtState.plain 's'

/-! ## Location capture

Go strings are indexed by byte. The model indexes by character, which is the
same thing for names made of one-byte characters; the characters that
`cleanFuncName` looks for (`/`, `.`, `(`, `)`) are one byte each. A run-time
panic (index or slice bounds out of range) is the result `none`.
-/

/-- `strings.Index(s, string(c))` and `strings.IndexByte(s, c)`: the index of
the first `c` in `s`, and -1 when there is none. -/
def stringsIndex (c : Char) : List Char → Int
  | [] => -1
  | x :: xs =>
    if x = c then 0
    else if stringsIndex c xs < 0 then -1
    else stringsIndex c xs + 1

/-- `strings.LastIndex(s, string(c))`: the index of the last `c` in `s`, and -1
when there is none. -/
def stringsLastIndex (c : Char) : List Char → Int
  | [] => -1
  | x :: xs =>
    if 0 ≤ stringsLastIndex c xs then stringsLastIndex c xs + 1
    else if x = c then 0
    else -1

/-- The slice expression `s[lo:]`: it panics unless `0 <= lo <= len(s)`. -/
def sliceFrom (s : List Char) (lo : Int) : Option (List Char) :=
  if 0 ≤ lo ∧ lo ≤ s.length then some (s.drop lo.toNat) else none

/-- The slice expression `s[lo:hi]`: it panics unless `0 <= lo <= hi <= len(s)`. -/
def sliceBetween (s : List Char) (lo hi : Int) : Option (List Char) :=
  if 0 ≤ lo ∧ lo ≤ hi ∧ hi ≤ s.length then some ((s.take hi.toNat).drop lo.toNat) else none

/-- `cleanFuncName(longName)`: the statements of the source in order; the index
expression `shortName[0]` panics on the empty string. -/
def cleanFuncName (longName : String) : Option String := do
  let withoutPath ← sliceFrom longName.data (stringsLastIndex '/' longName.data + 1)
  let withoutPackage ← sliceFrom withoutPath (stringsIndex '.' withoutPath + 1)
  let shortName := withoutPackage
  let first ← shortName.head?
  if first = '(' then
    let pos := stringsIndex ')' shortName
    let left ← sliceBetween shortName 2 pos
    let right ← sliceFrom shortName (pos + 1)
    some (String.mk (left ++ right))
  else
    some (String.mk shortName)

/-- One frame of the run-time stack: what `runtime.Caller` reports for it (file
and line) and the name `runtime.FuncForPC(pc).Name()` of its function. -/
structure Frame where
  file : String
  line : Int
  function : String
  deriving DecidableEq, Repr

/-- `runtime.Caller(skip)` on the stack `stack`, whose frame 0 is the function
that calls `runtime.Caller`: the frame `skip` levels up, `none` when the stack
is not that deep (`ok` is false). -/
def runtimeCaller (stack : List Frame) (skip : Nat) : Option Frame :=
  stack[skip]?

/-- `capture(skip)`, run with the stack `stack` whose frame 0 is `capture`
itself and with the hook `CleanFileName`. -/
def capture (CleanFileName : String → String) (stack : List Frame) (skip : Nat) : Option Location :=
  match runtimeCaller stack (skip + 1) with
  | none => some Location.zero
  | some frame =>
    match cleanFuncName frame.function with
    | none => none
    | some function => some ⟨CleanFileName frame.file, frame.line, function⟩

/-- The import path of the package (the one `example_test.go` imports). -/
def importPath : String := "github.com/Tanium-OSS/terror"

/-- The frame of the function `name` of this package, stopped at line `line` of
its source file `file`; `dir` is where the build found the sources. -/
def pkgFrame (dir file : String) (line : Int) (name : String) : Frame :=
  ⟨dir ++ file, line, importPath ++ "." ++ name⟩

/-- The call `capture(1)` made at line `line` of `file` by the function `name`
of this package, itself called with the stack `stack` (frame 0 of `stack` is
the caller of `name`): when `runtime.Caller` runs at `errors.go:240`, `capture`
is frame 0, `name` is frame 1, and `stack` follows. -/
def captureFrom (CleanFileName : String → String) (dir file : String) (line : Int) (name : String)
    (stack : List Frame) : Option Location :=
  capture CleanFileName (pkgFrame dir "errors.go" 240 "capture" :: pkgFrame dir file line name :: stack) 1

/-! ## The constructors on a run-time stack

Each function below is the constructor of the same name called with the stack
`stack`, whose frame 0 is the calling function; the result is `none` when the
call panics.
-/

/-- `Wrap(err, format, args...)`; `capture(1)` is called at `errors.go:28`. -/
def WrapCall (CleanFileName : String → String) (dir : String) (stack : List Frame)
    (err : GoError) (msg : String) : Option GoError :=
  if err = nil then some nil
  else (captureFrom CleanFileName dir "errors.go" 28 "Wrap" stack).map (fun loc => terror err msg loc)

/-- `Annotate(err)`; `capture(1)` is called at `errors.go:39`. -/
def AnnotateCall (CleanFileName : String → String) (dir : String) (stack : List Frame)
    (err : GoError) : Option GoError :=
  if err = nil then some nil
  else (captureFrom CleanFileName dir "errors.go" 39 "Annotate" stack).map (fun loc => terror err "" loc)

/-- `WrapWithCode(err, code, format, args...)`; `capture(1)` is called at
`errors.go:54`. -/
def WrapWithCodeCall (CleanFileName : String → String) (dir : String) (stack : List Frame)
    (err : GoError) (code : Int) (msg : String) : Option GoError :=
  if err = nil then some nil
  else (captureFrom CleanFileName dir "errors.go" 54 "WrapWithCode" stack).map
    (fun loc => coded (terror err msg loc) code)

/-- `New(format, args...)`; `capture(1)` is called at `errors.go:64`. -/
def NewCall (CleanFileName : String → String) (dir : String) (stack : List Frame)
    (msg : String) : Option GoError :=
  (captureFrom CleanFileName dir "errors.go" 64 "New" stack).map (fun loc => terror nil msg loc)

/-- `NewWithCode(code, format, args...)`; `capture(1)` is called at
`errors.go:75`. -/
def NewWithCodeCall (CleanFileName : String → String) (dir : String) (stack : List Frame)
    (code : Int) (msg : String) : Option GoError :=
  (captureFrom CleanFileName dir "errors.go" 75 "NewWithCode" stack).map
    (fun loc => coded (terror nil msg loc) code)

/-- `WrapInto(pErr, format, args...)`: the contents of the slot after the call;
`capture(1)` is called at `wrapinto.go:19`. -/
def WrapIntoCall (CleanFileName : String → String) (dir : String) (stack : List Frame)
    (pErr : GoError) (msg : String) : Option GoError :=
  if pErr = nil then some pErr
  else (captureFrom CleanFileName dir "wrapinto.go" 19 "WrapInto" stack).map
    (fun loc => terror pErr msg loc)

/-- The message field of a chain node, `none` for a value that is not a
`TError`. -/
def GoError.msg? : GoError → Option String
  | terror _ msg _ => some msg
  | _ => none

/-! ## The multi-error aggregator and the closing helpers

The aggregator (`go.uber.org/multierr`) is an external package. The contents of
an error slot that it writes are modelled by the list of the non-nil errors
appended so far, in order: the empty list is "no error", a list of one error is
that error itself, a longer list is an aggregate.
-/

/-- Modelled from the spec: `appendInto(slot, err)` of the aggregator, which is
not part of the repository: appending no error is a no-op, and otherwise the
slot holds all the non-nil errors seen so far, in the order they were
appended. -/
def appendInto (slot : List GoError) (err : GoError) : List GoError :=
  if err = nil then slot else slot ++ [err]

/-- Modelled from the spec: `combine(errs...)` of the aggregator, which is not
part of the repository: a single aggregate of the constituents that are errors,
and no error if the sequence contains none. -/
def combine (errs : List GoError) : List GoError :=
  errs.filter (fun err => decide (err ≠ nil))

/-- Modelled from the spec: the compact rendering of an aggregate, which lists
each constituent; the separator "; " is the one of the expected output of
`ExampleCloseAndAppendOnError`. The aggregator is not part of the repository. -/
def aggregateError (slot : List GoError) : String :=
  "; ".intercalate (slot.map GoError.Error)

/-- `CloseAndAppendOnError(pErr, c, format, args...)`, called with the stack
`stack` (frame 0 is the caller). `Close` is the `Close` method of the closer,
from its state to the error it returns and its state afterwards. `c.Close()` is
evaluated first, as an argument of `Wrap`; `Wrap` is called at `closer.go:17`.
The result is the contents of the slot and the state of the closer after the
call, `none` when the call panics. -/
def CloseAndAppendOnError {σ : Type} (CleanFileName : String → String) (dir : String)
    (stack : List Frame) (pErr : List GoError) (Close : σ → GoError × σ) (c : σ)
    (msg : String) : Option (List GoError × σ) :=
  let closed := Close c
  (WrapCall CleanFileName dir (pkgFrame dir "closer.go" 17 "CloseAndAppendOnError" :: stack)
      closed.1 msg).map
    (fun wrapped => (appendInto pErr wrapped, closed.2))

/-- One call of the log function: its template and its argument. -/
structure LogCall where
  template : String
  arg : List GoError
  deriving DecidableEq, Repr

/-- The `for` loop of `CloseAndLogOnError`: each closer of the list in turn is
closed on the state the one before left, and its result is appended into
`err`. -/
def closeLoop {σ : Type} : List (σ → GoError × σ) → List GoError → σ → List GoError × σ
  | [], err, s => (err, s)
  | closer :: closers, err, s => closeLoop closers (appendInto err (closer s).1) (closer s).2

/-- `CloseAndLogOnError(fn, closers...)`: the calls made to `fn`, in order, and
the state after the closers have run. `var err error` starts as no error. -/
def CloseAndLogOnError {σ : Type} (closers : List (σ → GoError × σ)) (s : σ) : List LogCall × σ :=
  let r := closeLoop closers [] s
  if r.1 ≠ [] then ([⟨"Close operation failed with error: %+v", r.1⟩], r.2)
  else ([], r.2)

/-- The location of the call of `Wrap` inside `CloseAndAppendOnError`. -/
def closerGoLine17 (CleanFileName : String → String) (dir : String) : Location :=
  ⟨CleanFileName (dir ++ "closer.go"), 17, "CloseAndAppendOnError"⟩

/-- A closer that also counts the calls of its `Close` method (the `closeCount`
of `TestCloser`). -/
def countCalls {σ : Type} (Close : σ → GoError × σ) : σ × Nat → GoError × (σ × Nat) :=
  fun s => ((Close s.1).1, ((Close s.1).2, s.2 + 1))

/-- What running the closers in order gives: the result of each `Close`, nil
included, and the state at the end. -/
def runClosers {σ : Type} : List (σ → GoError × σ) → σ → List GoError × σ
  | [], s => ([], s)
  | closer :: closers, s =>
    ((closer s).1 :: (runClosers closers (closer s).2).1, (runClosers closers (closer s).2).2)

/-- Closers that return the given results and write their position in the list
to a shared trace when closed. -/
def tracedClosers (results : List GoError) : List (List Nat → GoError × List Nat) :=
  results.enum.map (fun r => fun trace => (r.2, trace ++ [r.1]))

/-! ## Code lookup on an aggregate, and chains compared up to codes and locations -/

/-- The same chain with every coded node replaced by the value under it. -/
def stripCodes : GoError → GoError
  | nil => nil
  | foreign text => foreign text
  | wrapper text inner => wrapper text inner
  | terror base msg loc => terror (stripCodes base) msg loc
  | coded base _ => stripCodes base

/-- No chain node of the chain has for cause a coded node over an empty-message
chain node, and no coded node holds nil. -/
def noCodedMarkerCause : GoError → Bool
  | terror base _ _ =>
    (match base with
      | coded inner _ => !(isTErrorNoMsg (stripCodes inner))
      | _ => true) && noCodedMarkerCause base
  | coded base _ => decide (stripCodes base ≠ nil) && noCodedMarkerCause base
  | _ => true

/-- The same chain with every captured location set to the zero Location and
every code set to 0: what is left is the shape of the chain, its messages and
its leaf. -/
def eraseStack : GoError → GoError
  | nil => nil
  | foreign text => foreign text
  | wrapper text inner => wrapper text (eraseStack inner)
  | terror base msg _ => terror (eraseStack base) msg Location.zero
  | coded base _ => coded (eraseStack base) 0

/-! ## Helper lemmas -/

theorem wrap_of_ne_nil (err : GoError) (msg : String) (loc : Location) (h : err ≠ nil) :
    Wrap err msg loc = terror err msg loc := by
  simp [Wrap, h]

theorem annotate_eq_wrap (err : GoError) (loc : Location) :
    Annotate err loc = Wrap err "" loc := rfl

theorem wrap_ne_nil (err : GoError) (msg : String) (loc : Location) (h : err ≠ nil) :
    Wrap err msg loc ≠ nil := by
  simp [Wrap, h]

theorem wrapAll_ne_nil (layers : List (String × Location)) :
    ∀ e : GoError, e ≠ nil → wrapAll e layers ≠ nil := by
  induction layers with
  | nil => intro e h; simpa [wrapAll] using h
  | cons layer rest ih =>
    intro e h
    have := ih (Wrap e layer.1 layer.2) (wrap_ne_nil e layer.1 layer.2 h)
    simpa [wrapAll] using this

theorem wrapAll_snoc (e : GoError) (layers : List (String × Location)) (layer : String × Location) :
    wrapAll e (layers ++ [layer]) = Wrap (wrapAll e layers) layer.1 layer.2 := by
  simp [wrapAll, List.foldl_append]

theorem error_terror (base : GoError) (msg : String) (loc : Location) (h : base ≠ nil) :
    (terror base msg loc).Error = if msg = "" then base.Error else msg ++ ": " ++ base.Error := by
  simp [GoError.Error, h]

/-! ## C1, C2: wrapping and the compact rendering -/

/-- C1: for a non-nil error `err`, the compact rendering of `Wrap(err, msg)` is
`msg + ": " + err.Error()` when `msg` is non-empty and `err.Error()` itself when
`msg` is empty. -/
theorem wrap_error (err : GoError) (msg : String) (loc : Location) (h : err ≠ nil) :
    (msg ≠ "" → (Wrap err msg loc).Error = msg ++ ": " ++ err.Error) ∧
    (msg = "" → (Wrap err msg loc).Error = err.Error) := by
  rw [wrap_of_ne_nil err msg loc h, error_terror err msg loc h]
  constructor
  · intro hm; simp [hm]
  · intro hm; simp [hm]

/-- Witness of C1: the scenario of the test, an empty-message wrap over
`Wrap(errors.New("some error"), "trying something")`. -/
theorem wrap_error_witness :
    Wrap (foreign "some error") "trying something" ⟨"terror/testdata_test.go", 13, "tryButFail"⟩ ≠ nil ∧
    (Wrap (Wrap (foreign "some error") "trying something" ⟨"terror/testdata_test.go", 13, "tryButFail"⟩) ""
        ⟨"terror/testdata_test.go", 16, "wrapNoMessage"⟩).Error
      = "trying something: some error" :=
  ⟨by decide,
   ((wrap_error (Wrap (foreign "some error") "trying something" ⟨"terror/testdata_test.go", 13, "tryButFail"⟩) ""
      ⟨"terror/testdata_test.go", 16, "wrapNoMessage"⟩ (by decide)).2 rfl).trans (by decide)⟩

/-- C2: `Wrap`, `Annotate` and `WrapWithCode` return nil on a nil error, for
every message, code and call site. -/
theorem wrap_nil (msg : String) (code : Int) (loc : Location) :
    Wrap nil msg loc = nil ∧ Annotate nil loc = nil ∧ WrapWithCode nil code msg loc = nil :=
  ⟨rfl, rfl, rfl⟩

/-! ## C3, C4: the format verb and the detailed rendering -/

/-- C3: `TError.Format` writes the compact rendering `Error()` for every verb
other than `v`, and the detailed rendering for `v`, whatever the flags, width
and precision of the state. -/
theorem format_verb (fprintf : String → GoError → String) (base : GoError) (msg : String)
    (loc : Location) (f : FmtState) (c : Char) :
    (c ≠ 'v' → TError.Format fprintf base msg loc f c = (terror base msg loc).Error) ∧
    (c = 'v' → TError.Format fprintf base msg loc f c
      = TError.detailedError fprintf base msg loc) := by
  constructor
  · intro hc; simp [TError.Format, hc]
  · intro hc; simp [TError.Format, hc]

/-- Witness of C3: `%s` and `%+v` on the chain of the test. -/
theorem format_verb_witness :
    TError.Format fprintfError (foreign "some error") "trying something"
        ⟨"terror/testdata_test.go", 13, "tryButFail"⟩
        ⟨false, false, false, false, false, none, none⟩ 's'
      = "trying something: some error" ∧
    TError.Format fprintfError (foreign "some error") "trying something"
        ⟨"terror/testdata_test.go", 13, "tryButFail"⟩
        ⟨false, true, false, false, false, none, none⟩ 'v'
      = "trying something\n --- at terror/testdata_test.go:13 (tryButFail) ---\ncaused by some error" :=
  ⟨((format_verb fprintfError (foreign "some error") "trying something"
      ⟨"terror/testdata_test.go", 13, "tryButFail"⟩
      ⟨false, false, false, false, false, none, none⟩ 's').1 (by decide)).trans (by decide),
   ((format_verb fprintfError (foreign "some error") "trying something"
      ⟨"terror/testdata_test.go", 13, "tryButFail"⟩
      ⟨false, true, false, false, false, none, none⟩ 'v').2 rfl).trans (by decide)⟩

theorem isPrefixOf_append_boundary (c : Char) (B : List Char) :
    ∀ (pat A : List Char), c ∉ pat → pat.isPrefixOf (A ++ c :: B) = pat.isPrefixOf A := by
  intro pat
  induction pat with
  | nil => intro A _; simp
  | cons p ps ih =>
    intro A hc
    have hp : p ≠ c := fun h => hc (by simp [h])
    have hps : c ∉ ps := fun h => hc (by simp [h])
    cases A with
    | nil => simp [List.isPrefixOf, hp]
    | cons a A2 =>
      show ((p == a) && ps.isPrefixOf (A2 ++ c :: B)) = ((p == a) && ps.isPrefixOf A2)
      rw [ih A2 hps]

/-- An occurrence cannot start at a character other than the first of the
pattern. -/
theorem countOcc_cons_of_ne (p : Char) (ps : List Char) (c : Char) (s : List Char) (h : c ≠ p) :
    countOcc (p :: ps) (c :: s) = countOcc (p :: ps) s := by
  have : (p == c) = false := by simpa using fun e => h e.symm
  simp [countOcc, List.isPrefixOf, this]

/-- A character that is not in the pattern separates the occurrences: none runs
across it. -/
theorem countOcc_append_boundary (pat : List Char) (c : Char) (B : List Char) (hc : c ∉ pat)
    (hne : pat ≠ []) :
    ∀ A : List Char, countOcc pat (A ++ c :: B) = countOcc pat A + countOcc pat B := by
  intro A
  induction A with
  | nil =>
    cases pat with
    | nil => exact absurd rfl hne
    | cons p ps =>
      have hp : c ≠ p := fun h => hc (by simp [h])
      show countOcc (p :: ps) (c :: B) = countOcc (p :: ps) [] + countOcc (p :: ps) B
      rw [countOcc_cons_of_ne p ps c B hp]
      simp [countOcc]
  | cons a A2 ih =>
    have hpre : pat.isPrefixOf (a :: (A2 ++ c :: B)) = pat.isPrefixOf (a :: A2) :=
      isPrefixOf_append_boundary c B pat (a :: A2) hc
    show (if pat.isPrefixOf (a :: (A2 ++ c :: B)) then 1 else 0) + countOcc pat (A2 ++ c :: B)
      = ((if pat.isPrefixOf (a :: A2) then 1 else 0) + countOcc pat A2) + countOcc pat B
    rw [hpre, ih]
    omega

/-- A stretch of text without the first character of the pattern holds no start
of an occurrence. -/
theorem countOcc_append_of_not_mem (p : Char) (ps : List Char) (B : List Char) :
    ∀ A : List Char, p ∉ A → countOcc (p :: ps) (A ++ B) = countOcc (p :: ps) B := by
  intro A
  induction A with
  | nil => intro _; rfl
  | cons a A2 ih =>
    intro h
    have ha : a ≠ p := fun e => h (by simp [e])
    have hA : p ∉ A2 := fun e => h (by simp [e])
    rw [List.cons_append, countOcc_cons_of_ne p ps a _ ha, ih hA]

theorem causedBy_data :
    causedBy.data = ['c', 'a', 'u', 's', 'e', 'd', ' ', 'b', 'y', ' '] := by decide

/-- The marker followed by any text: one occurrence more than in the text. -/
theorem countOcc_marker_append (X : List Char) :
    countOcc causedBy.data (causedBy.data ++ X) = 1 + countOcc causedBy.data X := by
  rw [causedBy_data]
  simp [countOcc, List.isPrefixOf]

/-- The count is zero exactly when the pattern is not a contiguous part of the
text. -/
theorem countOcc_eq_zero_iff (pat : List Char) (hne : pat ≠ []) :
    ∀ s : List Char, countOcc pat s = 0 ↔ ¬ pat <:+: s := by
  intro s
  induction s with
  | nil => simp [countOcc, hne]
  | cons c s ih =>
    rw [List.infix_cons_iff, not_or, ← ih]
    simp only [countOcc, Nat.add_eq_zero_iff]
    by_cases h : pat.isPrefixOf (c :: s) = true
    · have hp : pat <+: c :: s := List.isPrefixOf_iff_prefix.mp h
      simp [h, hp]
    · have hp : ¬ pat <+: c :: s := fun hp => h (List.isPrefixOf_iff_prefix.mpr hp)
      simp [h, hp]

theorem digitChar_ne_c (n : Nat) (h : n < 10) : Nat.digitChar n ≠ 'c' := by
  interval_cases n <;> decide

theorem toDigitsCore_not_mem (fuel : Nat) :
    ∀ (n : Nat) (ds : List Char), 'c' ∉ ds → 'c' ∉ Nat.toDigitsCore 10 fuel n ds := by
  induction fuel with
  | zero => intro n ds h; simpa [Nat.toDigitsCore] using h
  | succ fuel ih =>
    intro n ds h
    have hd : 'c' ∉ Nat.digitChar (n % 10) :: ds := by
      intro hm
      rcases List.mem_cons.mp hm with e | e
      · exact digitChar_ne_c (n % 10) (Nat.mod_lt n (by decide)) e.symm
      · exact h e
    simp only [Nat.toDigitsCore]
    split
    · exact hd
    · exact ih _ _ hd

theorem toString_nat_not_mem (n : Nat) : 'c' ∉ (toString n).data := by
  show 'c' ∉ (Nat.toDigits 10 n).asString.data
  exact toDigitsCore_not_mem _ _ _ (by simp)

/-- The decimal text of a line number has no letter `c`. -/
theorem toString_int_not_mem (n : Int) : 'c' ∉ (toString n).data := by
  cases n with
  | ofNat m => exact toString_nat_not_mem m
  | negSucc m =>
    show 'c' ∉ ("-" ++ toString (Nat.succ m)).data
    rw [String.data_append]
    intro h
    rcases List.mem_append.mp h with e | e
    · revert e; decide
    · exact toString_nat_not_mem _ e

theorem locationLine_data (loc : Location) :
    (locationLine loc).data
      = [' ', '-', '-', '-', ' ', 'a', 't', ' '] ++
          (loc.File.data ++ ':' ::
            (((toString loc.Line).data ++ [' ', '(']) ++ (loc.Function.data ++ ')' :: [' ', '-', '-', '-']))) := by
  simp [locationLine, Location.String, String.data_append]

/-- The location line holds no marker when the file name and the function name
hold none. -/
theorem occurrences_locationLine (loc : Location)
    (hf : occurrences causedBy loc.File = 0) (hn : occurrences causedBy loc.Function = 0) :
    occurrences causedBy (locationLine loc) = 0 := by
  unfold occurrences at *
  rw [locationLine_data, causedBy_data] at *
  rw [countOcc_append_of_not_mem _ _ _ _ (by decide),
    countOcc_append_boundary _ ':' _ (by decide) (by simp), hf,
    countOcc_append_of_not_mem _ _ _ _ (by
      intro h
      rcases List.mem_append.mp h with e | e
      · exact toString_int_not_mem _ e
      · revert e; decide),
    countOcc_append_boundary _ ')' _ (by decide) (by simp), hn]
  decide

/-- A newline separates the occurrences of the marker. -/
theorem occurrences_newline (a b : String) :
    occurrences causedBy (a ++ "\n" ++ b) = occurrences causedBy a + occurrences causedBy b := by
  unfold occurrences
  have h : (a ++ "\n" ++ b).data = a.data ++ '\n' :: b.data := by
    simp [String.data_append]
  rw [h, countOcc_append_boundary _ '\n' _ (by rw [causedBy_data]; decide)
    (by rw [causedBy_data]; simp)]

theorem occurrences_marker (x : String) :
    occurrences causedBy (causedBy ++ x) = 1 + occurrences causedBy x := by
  unfold occurrences
  rw [String.data_append, countOcc_marker_append]

/-- The detailed rendering of a node with a captured location: its own lines,
then the cause on the next line, after "caused by " unless the cause is an
empty-message chain node. -/
theorem fmtPlusV_located (fprintf : String → GoError → String) (base : GoError) (msg : String)
    (loc : Location) (hl : loc ≠ Location.zero) :
    fmtPlusV fprintf (terror base msg loc)
      = (if msg = "" then locationLine loc else msg ++ "\n" ++ locationLine loc) ++
        (if isTErrorNoMsg base then "\n" ++ fmtPlusV fprintf base
         else if base = nil then "" else "\n" ++ (causedBy ++ fmtPlusV fprintf base)) := by
  have e0 : ∀ s : String, "" ++ s = s := by intro s; apply String.ext; simp
  have e1 : ∀ s : String, s ++ "" = s := by intro s; apply String.ext; simp
  have hn : ¬ ("\n" : String) = "" := by decide
  have hnil : isTErrorNoMsg nil = false := rfl
  by_cases hm : msg = "" <;> by_cases hb : base = nil
  · subst hb
    simp only [fmtPlusV, detailedErrorWith, locationLine, hl, hm, hnil, ne_eq, not_true_eq_false,
      not_false_eq_true, if_true, if_false, e0, e1, Bool.false_eq_true]
  · by_cases hp : isTErrorNoMsg base = true <;>
      simp only [fmtPlusV, detailedErrorWith, locationLine, causedBy, hl, hm, hp, hb, hn, ne_eq,
        not_true_eq_false, not_false_eq_true, if_true, if_false, e0, e1, String.append_assoc,
        Bool.false_eq_true]
  · subst hb
    simp only [fmtPlusV, detailedErrorWith, locationLine, hl, hm, hnil, ne_eq, not_true_eq_false,
      not_false_eq_true, if_true, if_false, e0, e1, Bool.false_eq_true]
  · by_cases hp : isTErrorNoMsg base = true <;>
      simp only [fmtPlusV, detailedErrorWith, locationLine, causedBy, hl, hm, hp, hb, hn, ne_eq,
        not_true_eq_false, not_false_eq_true, if_true, if_false, e0, e1, String.append_assoc,
        Bool.false_eq_true]

theorem occurrences_empty : occurrences causedBy "" = 0 := rfl

theorem occurrences_ownLines (msg : String) (loc : Location)
    (hm : occurrences causedBy msg = 0) (hline : occurrences causedBy (locationLine loc) = 0) :
    occurrences causedBy (if msg = "" then locationLine loc else msg ++ "\n" ++ locationLine loc) = 0 := by
  split
  · exact hline
  · rw [occurrences_newline, hm, hline]

theorem occurrences_after_lines (own rest : String) :
    occurrences causedBy (own ++ ("\n" ++ rest))
      = occurrences causedBy own + occurrences causedBy rest := by
  rw [← String.append_assoc, occurrences_newline]

theorem occurrences_fmtPlusV (fprintf : String → GoError → String) (e : GoError) :
    markerFreeChain e = true → markerFreeLocations e = true → markerFreeLeaf fprintf e = true →
      occurrences causedBy (fmtPlusV fprintf e) = visibleTransitions e := by
  induction e with
  | nil => intro hc _ _; simp [markerFreeChain] at hc
  | foreign t =>
    intro _ _ hf; simpa [markerFreeLeaf, fmtPlusV, visibleTransitions] using hf
  | wrapper t inner _ =>
    intro _ _ hf; simpa [markerFreeLeaf, fmtPlusV, visibleTransitions] using hf
  | coded base code _ => intro hc _ _; simp [markerFreeChain] at hc
  | terror base msg loc ih =>
    intro hc hl hf
    simp only [markerFreeLeaf] at hf
    simp only [markerFreeChain, Bool.and_eq_true, Bool.or_eq_true, decide_eq_true_eq,
      beq_iff_eq] at hc
    simp only [markerFreeLocations, Bool.and_eq_true, beq_iff_eq] at hl
    obtain ⟨⟨hloc, hmsg⟩, hbase⟩ := hc
    obtain ⟨⟨hfile, hfunc⟩, hrest⟩ := hl
    have hown := occurrences_ownLines msg loc hmsg (occurrences_locationLine loc hfile hfunc)
    rw [fmtPlusV_located fprintf base msg loc hloc]
    by_cases hb : base = nil
    · subst hb
      have hnil : isTErrorNoMsg nil = false := rfl
      have e1 : ∀ s : String, s ++ "" = s := by intro s; apply String.ext; simp
      simp only [hnil, Bool.false_eq_true, if_false, if_true, e1, hown, visibleTransitions, ne_eq,
        not_true_eq_false, false_and]
    · have hih := ih (hbase.resolve_left hb) hrest hf
      by_cases hp : isTErrorNoMsg base = true
      · simp only [hp, if_true, occurrences_after_lines, hown, hih, visibleTransitions, ne_eq, hb,
          not_false_eq_true, true_and, Bool.true_eq_false, if_false, Nat.zero_add]
      · have hp2 : isTErrorNoMsg base = false := by simpa using hp
        simp only [hp2, hb, Bool.false_eq_true, if_false, occurrences_after_lines, hown,
          occurrences_marker, hih, visibleTransitions, ne_eq, not_false_eq_true, and_self, if_true,
          Nat.zero_add]

/-- C5, amended: on a chain of chain nodes that each carry a captured location,
ending in a root or a foreign leaf, where no message, no leaf text, no file
name or function name of a location, and nothing of what `%+v` writes for the
foreign leaf contains "caused by ", the detailed rendering holds exactly one
"caused by " per transition into a cause that is not a pure marker; and a node
with a captured location whose cause is a pure marker with a captured location
renders its own lines and, on the very next line, the location line of the
cause, with no "caused by " between them. -/
theorem causedBy_count (fprintf : String → GoError → String) (e : GoError)
    (hc : markerFreeChain e = true) (hl : markerFreeLocations e = true)
    (hf : markerFreeLeaf fprintf e = true) :
    occurrences causedBy (fmtPlusV fprintf e) = visibleTransitions e ∧
    (∀ (base : GoError) (msg : String) (loc markerLoc : Location),
      loc ≠ Location.zero → markerLoc ≠ Location.zero →
      fmtPlusV fprintf (terror (terror base "" markerLoc) msg loc)
        = (if msg = "" then locationLine loc else msg ++ "\n" ++ locationLine loc) ++
          ("\n" ++ (locationLine markerLoc ++
            (if isTErrorNoMsg base then "\n" ++ fmtPlusV fprintf base
             else if base = nil then "" else "\n" ++ (causedBy ++ fmtPlusV fprintf base))))) := by
  refine ⟨occurrences_fmtPlusV fprintf e hc hl hf, ?_⟩
  intro base msg loc markerLoc h1 h2
  have hp : isTErrorNoMsg (terror base "" markerLoc) = true := rfl
  rw [fmtPlusV_located fprintf _ msg loc h1, fmtPlusV_located fprintf base "" markerLoc h2]
  simp only [hp, if_true]

/-- Witness of C5, amended: the last chain of `TestWrap`, four wraps over the
sentinel, two of them pure markers, renders with three markers. -/
theorem causedBy_count_witness :
    occurrences causedBy (fmtPlusV fprintfError (wrapAll (foreign "some error")
        [("trying something", ⟨"terror/testdata_test.go", 13, "tryButFail"⟩),
         ("", ⟨"terror/testdata_test.go", 16, "wrapNoMessage"⟩),
         ("wrap with 2 message(s)", ⟨"terror/testdata_test.go", 18, "wrapMessage"⟩),
         ("", ⟨"terror/testdata_test.go", 16, "wrapNoMessage"⟩)])) = 3 :=
  (causedBy_count fprintfError (wrapAll (foreign "some error")
        [("trying something", ⟨"terror/testdata_test.go", 13, "tryButFail"⟩),
         ("", ⟨"terror/testdata_test.go", 16, "wrapNoMessage"⟩),
         ("wrap with 2 message(s)", ⟨"terror/testdata_test.go", 18, "wrapMessage"⟩),
         ("", ⟨"terror/testdata_test.go", 16, "wrapNoMessage"⟩)]) (by decide) (by decide)
        (by decide)).1.trans
    (by decide)

/-- C5 as stated fails: a root created in a file whose path contains
"caused by " is a chain of the claim (captured location, message without the
marker, no cause); it has no transition, and its detailed rendering
`boom\n --- at /src/caused by design/main.go:7 (main) ---` holds one marker. -/
theorem causedBy_count_counterexample :
    markerFreeChain (New "boom" ⟨"/src/caused by design/main.go", 7, "main"⟩) = true ∧
    fmtPlusV fprintfError (New "boom" ⟨"/src/caused by design/main.go", 7, "main"⟩)
      = "boom\n --- at /src/caused by design/main.go:7 (main) ---" ∧
    occurrences causedBy (fmtPlusV fprintfError (New "boom" ⟨"/src/caused by design/main.go", 7, "main"⟩)) = 1 ∧
    visibleTransitions (New "boom" ⟨"/src/caused by design/main.go", 7, "main"⟩) = 0 ∧
    ¬ ∀ (fprintf : String → GoError → String) (e : GoError), markerFreeChain e = true →
        occurrences causedBy (fmtPlusV fprintf e) = visibleTransitions e := by
  refine ⟨by decide, by decide, by decide, by decide, ?_⟩
  intro h
  have := h fprintfError (New "boom" ⟨"/src/caused by design/main.go", 7, "main"⟩) (by decide)
  revert this
  decide

/-! ## C6: the compact rendering as a fold -/

theorem intercalate_go_append (s : String) (l : List String) :
    ∀ a b : String, String.intercalate.go (a ++ b) s l = a ++ String.intercalate.go b s l := by
  induction l with
  | nil => intro a b; rfl
  | cons x rest ih =>
    intro a b
    simp only [String.intercalate.go]
    rw [String.append_assoc a b s, String.append_assoc a (b ++ s) x, ih]

theorem intercalate_cons_of_ne_nil (s a : String) (l : List String) (h : l ≠ []) :
    s.intercalate (a :: l) = a ++ s ++ s.intercalate l := by
  cases l with
  | nil => exact absurd rfl h
  | cons b rest =>
    simp only [String.intercalate, String.intercalate.go]
    rw [String.append_assoc a s b, intercalate_go_append, intercalate_go_append, String.append_assoc]

theorem filter_nonempty_of_all (l : List String) (h : ∀ m ∈ l, m ≠ "") :
    l.filter (fun m => decide (m ≠ "")) = l := by
  rw [List.filter_eq_self]
  intro m hmem
  simpa using h m hmem

/-- C6: after successive `Wrap` calls on a non-nil error `e`, the compact
rendering is the non-empty messages, outermost first, followed by `e.Error()`,
joined by ": "; when every message is non-empty these are all the messages,
one segment per call. -/
theorem compact_fold (e : GoError) (layers : List (String × Location)) (h : e ≠ nil) :
    (wrapAll e layers).Error
      = ": ".intercalate (((layers.reverse.map Prod.fst).filter (fun m => decide (m ≠ ""))) ++ [e.Error]) ∧
    ((∀ layer ∈ layers, layer.1 ≠ "") →
      (wrapAll e layers).Error = ": ".intercalate (layers.reverse.map Prod.fst ++ [e.Error]) ∧
      (layers.reverse.map Prod.fst).length = layers.length) := by
  have main : ∀ ls : List (String × Location), (wrapAll e ls).Error
      = ": ".intercalate (((ls.reverse.map Prod.fst).filter (fun m => decide (m ≠ ""))) ++ [e.Error]) := by
    intro ls
    induction ls using List.reverseRecOn with
    | nil => simp [wrapAll, String.intercalate, String.intercalate.go]
    | append_singleton rest layer ih =>
      rw [wrapAll_snoc, wrap_of_ne_nil _ _ _ (wrapAll_ne_nil rest e h),
        error_terror _ _ _ (wrapAll_ne_nil rest e h), ih]
      by_cases hm : layer.1 = ""
      · simp [hm]
      · simp only [hm, if_false, List.reverse_append, List.reverse_cons, List.reverse_nil,
          List.nil_append, List.singleton_append, List.map_cons, List.filter_cons, ne_eq,
          not_false_eq_true, decide_True, if_true, List.cons_append]
        rw [intercalate_cons_of_ne_nil _ _ _ (by simp)]
  refine ⟨main layers, fun hall => ⟨?_, by simp⟩⟩
  rw [main layers, filter_nonempty_of_all]
  intro m hm
  simp only [List.mem_map, List.mem_reverse] at hm
  obtain ⟨layer, hmem, rfl⟩ := hm
  exact hall layer hmem

/-- Witness of C6: the three wraps of `TestWrap` over the sentinel, the second
with an empty message. -/
theorem compact_fold_witness :
    foreign "some error" ≠ nil ∧
    (wrapAll (foreign "some error")
        [("trying something", ⟨"terror/testdata_test.go", 13, "tryButFail"⟩),
         ("", ⟨"terror/testdata_test.go", 16, "wrapNoMessage"⟩),
         ("wrap with 2 message(s)", ⟨"terror/testdata_test.go", 18, "wrapMessage"⟩)]).Error
      = "wrap with 2 message(s): trying something: some error" :=
  ⟨by decide,
   (compact_fold (foreign "some error")
      [("trying something", ⟨"terror/testdata_test.go", 13, "tryButFail"⟩),
       ("", ⟨"terror/testdata_test.go", 16, "wrapNoMessage"⟩),
       ("wrap with 2 message(s)", ⟨"terror/testdata_test.go", 18, "wrapMessage"⟩)] (by decide)).1.trans
     (by decide)⟩

/-! ## C7, C8, C9: code lookup -/

/-- The unwrap chain, stated with `errors.Unwrap` itself. -/
theorem unwrapChain_step (e : GoError) :
    unwrapChain e = if e = nil then [] else e :: unwrapChain (Unwrap e) := by
  cases e <;> simp [unwrapChain, Unwrap]

theorem getCode_terror (foreignAs : GoError → Option (GoError × Int)) (base : GoError) (msg : String) (loc : Location) :
    GetCode foreignAs (terror base msg loc) = GetCode foreignAs base := by
  simp [GetCode, errorsAsCodeError]

theorem getCode_wrap (foreignAs : GoError → Option (GoError × Int)) (e : GoError) (msg : String)
    (loc : Location) :
    GetCode foreignAs (Wrap e msg loc) = GetCode foreignAs e := by
  by_cases h : e = nil
  · simp [Wrap, h]
  · rw [wrap_of_ne_nil e msg loc h, getCode_terror]

theorem getCode_wrapAll (foreignAs : GoError → Option (GoError × Int)) (layers : List (String × Location)) :
    ∀ e : GoError, GetCode foreignAs (wrapAll e layers) = GetCode foreignAs e := by
  induction layers with
  | nil => intro e; rfl
  | cons layer rest ih =>
    intro e
    have : wrapAll e (layer :: rest) = wrapAll (Wrap e layer.1 layer.2) rest := rfl
    rw [this, ih, getCode_wrap]

theorem getCode_of_no_coded (foreignAs : GoError → Option (GoError × Int)) (e : GoError)
    (h : ∀ x ∈ unwrapChain e, isCoded x = false)
    (hAs : ∀ x ∈ unwrapChain e, (∀ b m l, x ≠ terror b m l) → foreignAs x = none) :
    GetCode foreignAs e = 0 := by
  induction e with
  | nil => rfl
  | foreign t =>
    have := hAs (foreign t) (by simp [unwrapChain]) (by intro b m l; exact GoError.noConfusion)
    simp [GetCode, errorsAsCodeError, this]
  | wrapper t inner ih =>
    have hw := hAs (wrapper t inner) (by simp [unwrapChain])
      (by intro b m l; exact GoError.noConfusion)
    have : GetCode foreignAs (wrapper t inner) = GetCode foreignAs inner := by
      simp [GetCode, errorsAsCodeError, hw]
    rw [this]
    exact ih (fun x hx => h x (by simp [unwrapChain, hx]))
      (fun x hx => hAs x (by simp [unwrapChain, hx]))
  | terror base msg loc ih =>
    rw [getCode_terror]
    exact ih (fun x hx => h x (by simp [unwrapChain, hx]))
      (fun x hx => hAs x (by simp [unwrapChain, hx]))
  | coded base code _ =>
    have := h (coded base code) (by simp [unwrapChain])
    simp [isCoded] at this

/-- C7: the code attached last wins: on a non-nil error `e`, with or without a
code in its chain, `GetCode(WrapWithCode(e, c, msg))` is `c`, for every code `c`,
zero included; and `GetCode(NewWithCode(c, msg))` is `c`. -/
theorem getCode_most_recent (foreignAs : GoError → Option (GoError × Int)) (e : GoError) (c : Int)
    (msg : String) (loc : Location) (h : e ≠ nil) :
    GetCode foreignAs (WrapWithCode e c msg loc) = c ∧ GetCode foreignAs (NewWithCode c msg loc) = c := by
  constructor
  · simp [WrapWithCode, h, GetCode, errorsAsCodeError]
  · simp [NewWithCode, GetCode, errorsAsCodeError]

/-- Witness of C7: the code 1 of an inner `NewWithCode` is replaced by 0. -/
theorem getCode_most_recent_witness :
    NewWithCode 1 "foo" ⟨"terror/errors_test.go", 232, "TestCode"⟩ ≠ nil ∧
    GetCode noAs (WrapWithCode (NewWithCode 1 "foo" ⟨"terror/errors_test.go", 232, "TestCode"⟩) 0 "bar"
      ⟨"terror/errors_test.go", 232, "TestCode"⟩) = 0 :=
  ⟨by decide,
   (getCode_most_recent noAs (NewWithCode 1 "foo" ⟨"terror/errors_test.go", 232, "TestCode"⟩) 0 "bar"
      ⟨"terror/errors_test.go", 232, "TestCode"⟩ (by decide)).1⟩

/-- C8: a wrap without a code keeps the code of the error it wraps: for a non-nil
error `e`, `GetCode(Wrap(e, msg)) = GetCode(e)` and `GetCode(Annotate(e)) = GetCode(e)`;
`Wrap(NewWithCode(123, "loading config"), "initializing system")` has the code
123 and the compact rendering "initializing system: loading config". -/
theorem getCode_uncoded_wrap (foreignAs : GoError → Option (GoError × Int)) (e : GoError) (msg : String)
    (loc : Location) (h : e ≠ nil) :
    GetCode foreignAs (Wrap e msg loc) = GetCode foreignAs e ∧ GetCode foreignAs (Annotate e loc) = GetCode foreignAs e ∧
    (∀ l1 l2 : Location,
      GetCode foreignAs (Wrap (NewWithCode 123 "loading config" l1) "initializing system" l2) = 123 ∧
      (Wrap (NewWithCode 123 "loading config" l1) "initializing system" l2).Error
        = "initializing system: loading config") := by
  refine ⟨?_, ?_, ?_⟩
  · rw [wrap_of_ne_nil e msg loc h, getCode_terror]
  · rw [annotate_eq_wrap, wrap_of_ne_nil e "" loc h, getCode_terror]
  · intro l1 l2
    constructor
    · simp [Wrap, NewWithCode, GetCode, errorsAsCodeError]
    · simp [Wrap, NewWithCode, GoError.Error]

/-- Witness of C8: the two-layer case of `TestCode`, over a coded wrap of the
sentinel. -/
theorem getCode_uncoded_wrap_witness :
    WrapWithCode (foreign "some error") 4 "foo" ⟨"terror/errors_test.go", 221, "TestCode"⟩ ≠ nil ∧
    GetCode noAs (Wrap (WrapWithCode (foreign "some error") 4 "foo" ⟨"terror/errors_test.go", 221, "TestCode"⟩)
      "bar" ⟨"terror/errors_test.go", 221, "TestCode"⟩) = 4 :=
  ⟨by decide,
   (getCode_uncoded_wrap noAs (WrapWithCode (foreign "some error") 4 "foo" ⟨"terror/errors_test.go", 221, "TestCode"⟩)
      "bar" ⟨"terror/errors_test.go", 221, "TestCode"⟩ (by decide)).1.trans (by decide)⟩

/-- C9, amended: `GetCode` is 0 when there is no code to find: on nil; on every
error whose unwrap chain holds no coded value and no foreign value in which
`errors.As` finds a coded one (an aggregate that holds a coded error is such a
value); so on a foreign error in which `errors.As` finds none and on any number
of `Wrap` layers over it, and on `New(msg)` and any number of `Wrap` layers
over it (`Annotate` is `Wrap` with the empty message). -/
theorem getCode_none (foreignAs : GoError → Option (GoError × Int)) :
    GetCode foreignAs nil = 0 ∧
    (∀ e : GoError, (∀ x ∈ unwrapChain e, isCoded x = false) →
      (∀ x ∈ unwrapChain e, (∀ b m l, x ≠ terror b m l) → foreignAs x = none) →
      GetCode foreignAs e = 0) ∧
    (∀ (text : String) (layers : List (String × Location)), foreignAs (foreign text) = none →
      GetCode foreignAs (wrapAll (foreign text) layers) = 0) ∧
    (∀ (msg : String) (loc : Location) (layers : List (String × Location)),
      GetCode foreignAs (wrapAll (New msg loc) layers) = 0) ∧
    (∀ (e : GoError) (loc : Location), Annotate e loc = Wrap e "" loc) := by
  refine ⟨rfl, getCode_of_no_coded foreignAs, ?_, ?_, annotate_eq_wrap⟩
  · intro text layers h
    rw [getCode_wrapAll]
    simp [GetCode, errorsAsCodeError, h]
  · intro msg loc layers
    rw [getCode_wrapAll]; rfl

/-- Witness of C9, amended: a wrap of the sentinel, and a foreign wrapper over a
root, where `errors.As` finds nothing in the foreign values; and a wrap of the
sentinel where it finds a code in another foreign value only. -/
theorem getCode_none_witness :
    GetCode noAs (Wrap (foreign "some error") "foo" ⟨"terror/errors_test.go", 213, "TestCode"⟩) = 0 ∧
    GetCode noAs (wrapper "blah foo" (New "foo" ⟨"terror/errors_test.go", 212, "TestCode"⟩)) = 0 ∧
    GetCode (asWith (foreign "some error; foo") (New "foo" ⟨"a.go", 1, "f"⟩, 13))
      (Wrap (foreign "some error") "foo" ⟨"terror/errors_test.go", 213, "TestCode"⟩) = 0 :=
  ⟨(getCode_none noAs).2.1 _ (by decide) (by intro x _ _; rfl),
   (getCode_none noAs).2.1 _ (by decide) (by intro x _ _; rfl),
   (getCode_none (asWith (foreign "some error; foo") (New "foo" ⟨"a.go", 1, "f"⟩, 13))).2.2.1
     "some error" [("foo", ⟨"terror/errors_test.go", 213, "TestCode"⟩)] (by decide)⟩

/-- C9 as stated fails: an aggregate of the sentinel and `NewWithCode(13, "foo")`
is a foreign error, and `errors.As` finds the coded error in it. A `Wrap` of
that aggregate has an unwrap chain of two values, the wrap and the aggregate,
neither of them coded, and its `GetCode` is 13. -/
theorem getCode_none_counterexample :
    unwrapChain (Wrap (foreign "some error; foo") "outer" ⟨"b.go", 2, "g"⟩)
      = [Wrap (foreign "some error; foo") "outer" ⟨"b.go", 2, "g"⟩, foreign "some error; foo"] ∧
    (∀ x ∈ unwrapChain (Wrap (foreign "some error; foo") "outer" ⟨"b.go", 2, "g"⟩),
      isCoded x = false) ∧
    GetCode (asWith (foreign "some error; foo") (New "foo" ⟨"a.go", 1, "f"⟩, 13))
      (Wrap (foreign "some error; foo") "outer" ⟨"b.go", 2, "g"⟩) = 13 ∧
    ¬ ∀ (foreignAs : GoError → Option (GoError × Int)) (e : GoError),
        (∀ x ∈ unwrapChain e, isCoded x = false) → GetCode foreignAs e = 0 := by
  refine ⟨by decide, by decide, by decide, ?_⟩
  intro hall
  have := hall (asWith (foreign "some error; foo") (New "foo" ⟨"a.go", 1, "f"⟩, 13))
    (Wrap (foreign "some error; foo") "outer" ⟨"b.go", 2, "g"⟩) (by decide)
  revert this
  decide
/-! ## C10: root lookup -/

/-- One turn of the loop of `RootError`, stated with `errors.Unwrap` and the
type assertion themselves. -/
theorem rootLoop_step (err deepestError : GoError) :
    rootLoop err deepestError
      = if err = nil then deepestError
        else rootLoop (Unwrap err) (if isError err then err else deepestError) := by
  cases err <;> simp [rootLoop, Unwrap, isError, GoError.Location?]

theorem rootLoop_eq (err : GoError) :
    ∀ d : GoError, rootLoop err d = (((unwrapChain err).filter isError).getLast?).getD d := by
  induction err with
  | nil => intro d; rfl
  | foreign t => intro d; rfl
  | wrapper t inner ih =>
    intro d
    simp [rootLoop, unwrapChain, isError, GoError.Location?, ih]
  | terror base msg loc ih =>
    intro d
    simp [rootLoop, unwrapChain, isError, GoError.Location?, ih, List.getLast?_cons]
  | coded base code ih =>
    intro d
    simp [rootLoop, unwrapChain, isError, GoError.Location?, ih]

theorem rootError_eq_innermostLocated (e : GoError) : RootError e = innermostLocated e := by
  cases e <;>
    simp [RootError, innermostLocated, Unwrap, rootLoop_eq, unwrapChain, isError,
      GoError.Location?, List.getLast?_cons]

theorem rootError_wrap_of_found (e : GoError) (msg : String) (loc : Location)
    (h : RootError e ≠ nil) : RootError (Wrap e msg loc) = RootError e := by
  have he : e ≠ nil := by
    intro h0; apply h; rw [h0]; rfl
  rw [wrap_of_ne_nil e msg loc he]
  rw [rootError_eq_innermostLocated] at h ⊢
  rw [rootError_eq_innermostLocated]
  unfold innermostLocated at h ⊢
  cases hl : ((unwrapChain e).filter isError).getLast? with
  | none => rw [hl] at h; exact absurd rfl h
  | some r => simp [unwrapChain, isError, GoError.Location?, List.getLast?_cons, hl]

theorem rootError_wrapAll_of_found (layers : List (String × Location)) :
    ∀ e : GoError, RootError e ≠ nil → RootError (wrapAll e layers) = RootError e := by
  induction layers with
  | nil => intro e _; rfl
  | cons layer rest ih =>
    intro e h
    have hw : wrapAll e (layer :: rest) = wrapAll (Wrap e layer.1 layer.2) rest := rfl
    have h1 := rootError_wrap_of_found e layer.1 layer.2 h
    rw [hw, ih _ (by rw [h1]; exact h), h1]

/-- C10: `RootError(e)` is the innermost value of the unwrap chain of `e`, `e`
included, that exposes a Location, and nil when the chain holds none (so for nil
and for a bare foreign error); a foreign error wrapped once or more with `Wrap`
gives the node of the first, innermost call, whose Location is the one captured
by that call. -/
theorem rootError_innermost :
    (∀ e : GoError, RootError e = innermostLocated e) ∧
    (∀ e : GoError, (∀ x ∈ unwrapChain e, isError x = false) → RootError e = nil) ∧
    RootError nil = nil ∧
    (∀ text : String, RootError (foreign text) = nil) ∧
    (∀ (text first : String) (loc : Location) (layers : List (String × Location)),
      RootError (wrapAll (foreign text) ((first, loc) :: layers)) = terror (foreign text) first loc ∧
      (RootError (wrapAll (foreign text) ((first, loc) :: layers))).Location? = some loc) := by
  refine ⟨rootError_eq_innermostLocated, ?_, rfl, fun _ => rfl, ?_⟩
  · intro e h
    rw [rootError_eq_innermostLocated]
    unfold innermostLocated
    have : (unwrapChain e).filter isError = [] := by
      rw [List.filter_eq_nil_iff]
      intro x hx
      simp [h x hx]
    rw [this]; rfl
  · intro text first loc layers
    have hw : wrapAll (foreign text) ((first, loc) :: layers)
        = wrapAll (terror (foreign text) first loc) layers := rfl
    have hr : RootError (terror (foreign text) first loc) = terror (foreign text) first loc := rfl
    have := rootError_wrapAll_of_found layers (terror (foreign text) first loc)
      (by rw [hr]; exact GoError.noConfusion)
    rw [hw, this, hr]
    exact ⟨rfl, rfl⟩

/-- Witness of C10: the chain of `TestRootError`, a first wrap and three more,
and a chain with no located value. -/
theorem rootError_innermost_witness :
    RootError (wrapAll (foreign "some error")
        [("the first wrap", ⟨"terror/errors_test.go", 254, "TestRootError"⟩),
         ("oh no an error", ⟨"terror/errors_test.go", 257, "TestRootError"⟩),
         ("oh no an error", ⟨"terror/errors_test.go", 257, "TestRootError"⟩),
         ("oh no an error", ⟨"terror/errors_test.go", 257, "TestRootError"⟩)])
      = terror (foreign "some error") "the first wrap" ⟨"terror/errors_test.go", 254, "TestRootError"⟩ ∧
    RootError (wrapper "outer" (foreign "some error")) = nil :=
  ⟨(rootError_innermost.2.2.2.2 "some error" "the first wrap" ⟨"terror/errors_test.go", 254, "TestRootError"⟩
      [("oh no an error", ⟨"terror/errors_test.go", 257, "TestRootError"⟩),
       ("oh no an error", ⟨"terror/errors_test.go", 257, "TestRootError"⟩),
       ("oh no an error", ⟨"terror/errors_test.go", 257, "TestRootError"⟩)]).1,
   rootError_innermost.2.1 _ (by decide)⟩

/-! ## C11: wrapping keeps the cause -/

theorem errorsIsLoop_self (goEq : GoError → GoError → Option Bool)
    (foreignIs : GoError → GoError → Bool) (e : GoError) (h : e ≠ nil)
    (hself : goEq e e = some true) : errorsIsLoop true goEq foreignIs e e = some true := by
  cases e with
  | nil => exact absurd rfl h
  | foreign t => simp [errorsIsLoop, isEqualStep, hself]
  | wrapper t inner => simp [errorsIsLoop, isEqualStep, hself]
  | terror base msg loc => simp [errorsIsLoop, isEqualStep, hself]
  | coded base code => simp [errorsIsLoop, isEqualStep, hself]

/-- One step of the loop of `errors.Is` on a chain node over a target that the
loop finds in the cause. -/
theorem errorsIsLoop_terror (goEq : GoError → GoError → Option Bool)
    (foreignIs : GoError → GoError → Bool) (target base : GoError) (msg : String) (loc : Location)
    (hp : goEq (terror base msg loc) target ≠ none)
    (hb : errorsIsLoop true goEq foreignIs target base = some true) :
    errorsIsLoop true goEq foreignIs target (terror base msg loc) = some true := by
  cases hg : goEq (terror base msg loc) target with
  | none => exact absurd hg hp
  | some b => cases b <;> simp [errorsIsLoop, isEqualStep, hg, hb]

theorem errorsIsLoop_coded (goEq : GoError → GoError → Option Bool)
    (foreignIs : GoError → GoError → Bool) (target base : GoError) (code : Int)
    (hp : goEq (coded base code) target ≠ none)
    (hb : errorsIsLoop true goEq foreignIs target base = some true) :
    errorsIsLoop true goEq foreignIs target (coded base code) = some true := by
  cases hg : goEq (coded base code) target with
  | none => exact absurd hg hp
  | some b => cases b <;> simp [errorsIsLoop, isEqualStep, hg, hb]

/-- With a target of a type that is not comparable, the loop of `errors.Is`
fails on every error in which no foreign value accepts the target by its own
means. -/
theorem errorsIsLoop_uncomparable (goEq : GoError → GoError → Option Bool)
    (foreignIs : GoError → GoError → Bool) (target : GoError)
    (hfi : ∀ x, foreignIs x target = false) :
    ∀ err : GoError, errorsIsLoop false goEq foreignIs target err = some false := by
  intro err
  induction err with
  | nil => rfl
  | foreign t => simp [errorsIsLoop, isEqualStep, hfi]
  | wrapper t inner ih => simp [errorsIsLoop, isEqualStep, hfi, ih]
  | terror base msg loc ih => simp [errorsIsLoop, isEqualStep, ih]
  | coded base code ih => simp [errorsIsLoop, isEqualStep, ih]

/-- C11, amended: for a non-nil error `e`, one `Unwrap` step on `Wrap(e, msg)`
and on `Annotate(e)`, and two steps on `WrapWithCode(e, code, msg)` (the first
gives the chain node under the code), reach `e` itself, and unwrapping a root
created by `New` gives nil. When the type of `e` is comparable and `e == e`
holds, `errors.Is` of each result against `e` succeeds, provided the
comparisons of the nodes above `e` with `e` do not panic. When the type of `e`
is not comparable and no foreign value accepts `e` by an `Is` method,
`errors.Is` of each result against `e` fails. -/
theorem wrap_unwrap (foreignComparable : GoError → Bool) (goEq : GoError → GoError → Option Bool)
    (foreignIs : GoError → GoError → Bool) (e : GoError) (msg : String) (code : Int)
    (loc : Location) (h : e ≠ nil) :
    Unwrap (Wrap e msg loc) = e ∧
    Unwrap (Annotate e loc) = e ∧
    Unwrap (WrapWithCode e code msg loc) = terror e msg loc ∧
    Unwrap (Unwrap (WrapWithCode e code msg loc)) = e ∧
    Unwrap (New msg loc) = nil ∧
    (typeComparable foreignComparable e = true → goEq e e = some true →
      (goEq (Wrap e msg loc) e ≠ none →
        errorsIs foreignComparable goEq foreignIs (Wrap e msg loc) e = some true) ∧
      (goEq (Annotate e loc) e ≠ none →
        errorsIs foreignComparable goEq foreignIs (Annotate e loc) e = some true) ∧
      (goEq (WrapWithCode e code msg loc) e ≠ none → goEq (terror e msg loc) e ≠ none →
        errorsIs foreignComparable goEq foreignIs (WrapWithCode e code msg loc) e = some true)) ∧
    (typeComparable foreignComparable e = false → (∀ x, foreignIs x e = false) →
      errorsIs foreignComparable goEq foreignIs (Wrap e msg loc) e = some false ∧
      errorsIs foreignComparable goEq foreignIs (Annotate e loc) e = some false ∧
      errorsIs foreignComparable goEq foreignIs (WrapWithCode e code msg loc) e = some false) := by
  refine ⟨?_, ?_, ?_, ?_, rfl, ?_, ?_⟩
  · simp [Wrap, h, Unwrap]
  · simp [Annotate, h, Unwrap]
  · simp [WrapWithCode, h, Unwrap]
  · simp [WrapWithCode, h, Unwrap]
  · intro hc hself
    have hs := errorsIsLoop_self goEq foreignIs e h hself
    refine ⟨?_, ?_, ?_⟩
    · intro hp
      rw [wrap_of_ne_nil e msg loc h] at hp ⊢
      simp only [errorsIs, h, or_false, hc, reduceCtorEq, if_false]
      exact errorsIsLoop_terror goEq foreignIs e e msg loc hp hs
    · intro hp
      rw [annotate_eq_wrap, wrap_of_ne_nil e "" loc h] at hp ⊢
      simp only [errorsIs, h, or_false, hc, reduceCtorEq, if_false]
      exact errorsIsLoop_terror goEq foreignIs e e "" loc hp hs
    · intro hp1 hp2
      have hw : WrapWithCode e code msg loc = coded (terror e msg loc) code := by
        simp [WrapWithCode, h]
      rw [hw] at hp1 ⊢
      simp only [errorsIs, h, or_false, hc, reduceCtorEq, if_false]
      exact errorsIsLoop_coded goEq foreignIs e _ code hp1
        (errorsIsLoop_terror goEq foreignIs e e msg loc hp2 hs)
  · intro hc hfi
    have hw : WrapWithCode e code msg loc = coded (terror e msg loc) code := by
      simp [WrapWithCode, h]
    rw [annotate_eq_wrap, wrap_of_ne_nil e msg loc h, wrap_of_ne_nil e "" loc h, hw]
    simp only [errorsIs, h, or_false, hc, reduceCtorEq, if_false]
    exact ⟨errorsIsLoop_uncomparable goEq foreignIs e hfi _,
      errorsIsLoop_uncomparable goEq foreignIs e hfi _,
      errorsIsLoop_uncomparable goEq foreignIs e hfi _⟩

/-- Witness of C11, amended: the sentinel of `TestGo113` under a foreign wrapper
of a comparable struct type, wrapped by `Wrap`: one `Unwrap` step gives the
foreign wrapper, and `errors.Is` against it and against the sentinel succeeds. -/
theorem wrap_unwrap_witness :
    wrapper "some error" (foreign "some error") ≠ nil ∧
    Unwrap (Wrap (wrapper "some error" (foreign "some error")) "wrapped in terror"
        ⟨"terror/testdata_test.go", 18, "wrapMessage"⟩)
      = wrapper "some error" (foreign "some error") ∧
    errorsIs (fun _ => true) eqByValue noIs
      (Wrap (wrapper "some error" (foreign "some error")) "wrapped in terror"
        ⟨"terror/testdata_test.go", 18, "wrapMessage"⟩)
      (wrapper "some error" (foreign "some error")) = some true ∧
    errorsIs (fun _ => true) eqByValue noIs
      (Wrap (wrapper "some error" (foreign "some error")) "wrapped in terror"
        ⟨"terror/testdata_test.go", 18, "wrapMessage"⟩)
      (foreign "some error") = some true :=
  ⟨by decide,
   (wrap_unwrap (fun _ => true) eqByValue noIs (wrapper "some error" (foreign "some error"))
      "wrapped in terror" 0 ⟨"terror/testdata_test.go", 18, "wrapMessage"⟩ (by decide)).1,
   ((wrap_unwrap (fun _ => true) eqByValue noIs (wrapper "some error" (foreign "some error"))
      "wrapped in terror" 0 ⟨"terror/testdata_test.go", 18, "wrapMessage"⟩
      (by decide)).2.2.2.2.2.1 rfl (by decide)).1 (by decide),
   by decide⟩

/-- C11 as stated fails: for an error `e` of a type that is not comparable (a
slice type with an `Error` method), `Unwrap(Wrap(e, "m"))` is `e`, and
`errors.Is(Wrap(e, "m"), e)` is false: `errors.Is` compares a value with the
target only when the type of the target is comparable. -/
theorem wrap_unwrap_counterexample :
    Unwrap (Wrap (foreign "slice error") "m" ⟨"a.go", 1, "f"⟩) = foreign "slice error" ∧
    errorsIs (fun _ => false) eqByValue noIs
      (Wrap (foreign "slice error") "m" ⟨"a.go", 1, "f"⟩) (foreign "slice error") = some false ∧
    ¬ ∀ (foreignComparable : GoError → Bool) (goEq : GoError → GoError → Option Bool)
        (foreignIs : GoError → GoError → Bool) (e : GoError) (msg : String) (loc : Location),
        e ≠ nil → errorsIs foreignComparable goEq foreignIs (Wrap e msg loc) e = some true := by
  refine ⟨by decide, by decide, ?_⟩
  intro hall
  have := hall (fun _ => false) eqByValue noIs (foreign "slice error") "m" ⟨"a.go", 1, "f"⟩
    (by decide)
  revert this
  decide
/-! ## C12: wrapping into a slot -/

/-- C12, amended: `WrapInto` leaves a slot that holds no error as it is; a slot
that holds an error `pErr` receives the chain node with cause `pErr` and the
formatted message, the value that `Wrap(pErr, msg)` builds at the same call
site, whose compact rendering is `msg + ": " + pErr.Error()` when the message
is non-empty and `pErr.Error()` when it is empty. -/
theorem wrapInto_slot (pErr : GoError) (msg : String) (loc : Location) (h : pErr ≠ nil) :
    WrapInto nil msg loc = nil ∧
    WrapInto pErr msg loc = terror pErr msg loc ∧
    WrapInto pErr msg loc = Wrap pErr msg loc ∧
    Unwrap (WrapInto pErr msg loc) = pErr ∧
    (msg ≠ "" → (WrapInto pErr msg loc).Error = msg ++ ": " ++ pErr.Error) ∧
    (msg = "" → (WrapInto pErr msg loc).Error = pErr.Error) := by
  have hw : WrapInto pErr msg loc = terror pErr msg loc := by simp [WrapInto, h]
  refine ⟨rfl, hw, ?_, ?_, ?_, ?_⟩
  · rw [hw, wrap_of_ne_nil pErr msg loc h]
  · rw [hw]; rfl
  · intro hm; rw [hw, error_terror pErr msg loc h]; simp [hm]
  · intro hm; rw [hw, error_terror pErr msg loc h]; simp [hm]

/-- Witness of C12: the deferred call of `ExampleWrapInto` on the error
`New("insufficient cheese")`. -/
theorem wrapInto_slot_witness :
    New "insufficient cheese" ⟨"terror/wrapinto_test.go", 27, "ExampleWrapInto.func2"⟩ ≠ nil ∧
    (WrapInto (New "insufficient cheese" ⟨"terror/wrapinto_test.go", 27, "ExampleWrapInto.func2"⟩)
        "getQuestionForAnswer(\"five tons of flax\")"
        ⟨"terror/wrapinto_test.go", 27, "ExampleWrapInto.func2"⟩).Error
      = "getQuestionForAnswer(\"five tons of flax\"): insufficient cheese" :=
  ⟨by decide,
   ((wrapInto_slot (New "insufficient cheese" ⟨"terror/wrapinto_test.go", 27, "ExampleWrapInto.func2"⟩)
      "getQuestionForAnswer(\"five tons of flax\")"
      ⟨"terror/wrapinto_test.go", 27, "ExampleWrapInto.func2"⟩ (by decide)).2.2.2.2.1
      (by decide)).trans (by decide)⟩

/-- C12 as stated fails for the empty message: `WrapInto` with the format `""`
on a slot holding `errors.New("insufficient cheese")` leaves a pure marker,
whose compact rendering is `insufficient cheese`, not
`"" + ": " + "insufficient cheese"`. -/
theorem wrapInto_slot_counterexample :
    (WrapInto (foreign "insufficient cheese") "" ⟨"terror/wrapinto_test.go", 27, "f"⟩).Error
      = "insufficient cheese" ∧
    ¬ ∀ (pErr : GoError) (msg : String) (loc : Location), pErr ≠ nil →
        (WrapInto pErr msg loc).Error = msg ++ ": " ++ pErr.Error := by
  refine ⟨by decide, ?_⟩
  intro hall
  have := hall (foreign "insufficient cheese") "" ⟨"terror/wrapinto_test.go", 27, "f"⟩ (by decide)
  revert this
  decide

/-! ## C13, C14: formatting a coded error, and the verbs of `fmt` -/

theorem format?_wrapWithCode (fprintf : String → GoError → String) (f : FmtState) (c : Char)
    (e : GoError) (code : Int) (msg : String) (loc : Location) :
    (WrapWithCode e code msg loc).Format? fprintf f c = (Wrap e msg loc).Format? fprintf f c := by
  by_cases h : e = nil
  · simp [WrapWithCode, Wrap, h]
  · simp [WrapWithCode, Wrap, h, GoError.Format?]

/-- C13: a code over a chain node changes no rendering: `codeError{t, c}.Error()`
is `t.Error()`, and `codeError{t, c}.Format(f, verb)` writes what
`t.Format(f, verb)` writes, for every verb and every state; so
`WrapWithCode(e, c, msg)` and `Wrap(e, msg)` made at the same call site have
the same compact rendering, the same text under every directive, and the same
detailed rendering. -/
theorem coded_renders_as_node (fprintf : String → GoError → String) (base : GoError)
    (msg : String) (loc : Location) (code : Int) (f : FmtState) (c : Char) :
    (coded (terror base msg loc) code).Error = (terror base msg loc).Error ∧
    (coded (terror base msg loc) code).Format? fprintf f c
      = (terror base msg loc).Format? fprintf f c ∧
    (coded (terror base msg loc) code).Format? fprintf f c
      = some (TError.Format fprintf base msg loc f c) ∧
    fmtPlusV fprintf (coded (terror base msg loc) code) = fmtPlusV fprintf (terror base msg loc) ∧
    (∀ (e : GoError) (m : String) (l : Location),
      (WrapWithCode e code m l).Error = (Wrap e m l).Error ∧
      (WrapWithCode e code m l).Format? fprintf f c = (Wrap e m l).Format? fprintf f c ∧
      fmtPlusV fprintf (WrapWithCode e code m l) = fmtPlusV fprintf (Wrap e m l)) := by
  refine ⟨rfl, rfl, rfl, rfl, ?_⟩
  intro e m l
  refine ⟨?_, format?_wrapWithCode fprintf f c e code m l, ?_⟩
  · by_cases h : e = nil
    · simp [WrapWithCode, Wrap, h]
    · simp [WrapWithCode, Wrap, h, GoError.Error]
  · by_cases h : e = nil
    · simp [WrapWithCode, Wrap, h]
    · simp [WrapWithCode, Wrap, h, fmtPlusV]

set_option maxRecDepth 8000 in
/-- C14, amended: for every chain node, `err.Error()` and `fmt.Printf("%s", err)`
give the same compact one-line text, while `fmt.Println(err)`, which formats
its operand through `Format` with the verb `v`, prints the detailed rendering;
for the chain of the package documentation the compact text is
"initializing system: loading config: some error" at every call site, and
`fmt.Println` prints the six lines that the documentation lists for `%v`. -/
theorem println_detailed (fprintf : String → GoError → String) (base : GoError) (msg : String)
    (loc : Location) :
    fmtPrintfS fprintf base msg loc = (terror base msg loc).Error ∧
    fmtPrintln fprintf base msg loc = TError.detailedError fprintf base msg loc ++ "\n" ∧
    (∀ l1 l2 l3 : Location,
      Wrap (Wrap (New "some error" l1) "loading config" l2) "initializing system" l3
        = terror (Wrap (New "some error" l1) "loading config" l2) "initializing system" l3 ∧
      (Wrap (Wrap (New "some error" l1) "loading config" l2) "initializing system" l3).Error
        = "initializing system: loading config: some error" ∧
      fmtPrintfS fprintf (Wrap (New "some error" l1) "loading config" l2) "initializing system" l3
        = "initializing system: loading config: some error") ∧
    fmtPrintln fprintf (Wrap (New "some error" ⟨"path/to/my/pkg/config.go", 62, "system.ReadConfig"⟩)
          "loading config" ⟨"path/to/my/pkg/config.go", 37, "system.LoadConfig"⟩)
        "initializing system" ⟨"path/to/my/pkg/system.go", 123, "system.Initialize"⟩
      = "initializing system\n --- at path/to/my/pkg/system.go:123 (system.Initialize) ---\n" ++
        "caused by loading config\n --- at path/to/my/pkg/config.go:37 (system.LoadConfig) ---\n" ++
        "caused by some error\n --- at path/to/my/pkg/config.go:62 (system.ReadConfig) ---\n" := by
  refine ⟨rfl, rfl, ?_, rfl⟩
  intro l1 l2 l3
  refine ⟨rfl, ?_, ?_⟩
  · simp [Wrap, New, GoError.Error]
  · simp [fmtPrintfS, TError.Format, Wrap, New, GoError.Error]

/-- C14 as stated fails: on the chain of the package documentation
`fmt.Println(err)` does not print the compact text; its first line already
ends after "initializing system". -/
theorem println_detailed_counterexample :
    fmtPrintln fprintfError (Wrap (New "some error" ⟨"path/to/my/pkg/config.go", 62, "system.ReadConfig"⟩)
          "loading config" ⟨"path/to/my/pkg/config.go", 37, "system.LoadConfig"⟩)
        "initializing system" ⟨"path/to/my/pkg/system.go", 123, "system.Initialize"⟩
      ≠ "initializing system: loading config: some error\n" ∧
    ¬ ∀ (fprintf : String → GoError → String) (base : GoError) (msg : String) (loc : Location),
        fmtPrintln fprintf base msg loc = (terror base msg loc).Error ++ "\n" := by
  refine ⟨by decide, ?_⟩
  intro hall
  have := hall fprintfError (Wrap (New "some error" ⟨"path/to/my/pkg/config.go", 62, "system.ReadConfig"⟩)
          "loading config" ⟨"path/to/my/pkg/config.go", 37, "system.LoadConfig"⟩)
        "initializing system" ⟨"path/to/my/pkg/system.go", 123, "system.Initialize"⟩
  revert this
  decide

/-! ## C15: the location a constructor records -/

theorem capture_no_frame (CleanFileName : String → String) (stack : List Frame) (skip : Nat)
    (h : stack.length ≤ skip + 1) : capture CleanFileName stack skip = some Location.zero := by
  have : stack[skip + 1]? = none := List.getElem?_eq_none h
  simp [capture, runtimeCaller, this]

theorem capture_frame (CleanFileName : String → String) (stack : List Frame) (skip : Nat)
    (frame : Frame) (h : stack[skip + 1]? = some frame) :
    capture CleanFileName stack skip
      = (cleanFuncName frame.function).map
          (fun function => (⟨CleanFileName frame.file, frame.line, function⟩ : Location)) := by
  simp only [capture, runtimeCaller, h]
  cases cleanFuncName frame.function <;> rfl

theorem captureFrom_caller (CleanFileName : String → String) (dir file : String) (line : Int)
    (name : String) (caller : Frame) (rest : List Frame) :
    captureFrom CleanFileName dir file line name (caller :: rest)
      = (cleanFuncName caller.function).map
          (fun function => (⟨CleanFileName caller.file, caller.line, function⟩ : Location)) :=
  capture_frame CleanFileName _ 1 caller (by simp)

/-- C15: with the call stack as an explicit list of frames, `capture(skip)` reads
the frame `skip+1` levels above its own, and gives the zero Location when the
stack has no frame there; each constructor (`New`, `NewWithCode`, `Wrap`,
`Annotate`, `WrapWithCode`, `WrapInto`), called on a non-nil input by the frame
`caller`, builds its node with the file of `caller` passed through
`CleanFileName`, the line of `caller`, and the function name of `caller` passed
through `cleanFuncName`; it returns exactly when `cleanFuncName` does. -/
theorem constructors_capture_caller (CleanFileName : String → String) (dir : String)
    (caller : Frame) (rest : List Frame) (err : GoError) (code : Int) (msg : String)
    (h : err ≠ nil) :
    NewCall CleanFileName dir (caller :: rest) msg
      = (cleanFuncName caller.function).map
          (fun function => New msg ⟨CleanFileName caller.file, caller.line, function⟩) ∧
    NewWithCodeCall CleanFileName dir (caller :: rest) code msg
      = (cleanFuncName caller.function).map
          (fun function => NewWithCode code msg ⟨CleanFileName caller.file, caller.line, function⟩) ∧
    WrapCall CleanFileName dir (caller :: rest) err msg
      = (cleanFuncName caller.function).map
          (fun function => Wrap err msg ⟨CleanFileName caller.file, caller.line, function⟩) ∧
    AnnotateCall CleanFileName dir (caller :: rest) err
      = (cleanFuncName caller.function).map
          (fun function => Annotate err ⟨CleanFileName caller.file, caller.line, function⟩) ∧
    WrapWithCodeCall CleanFileName dir (caller :: rest) err code msg
      = (cleanFuncName caller.function).map
          (fun function => WrapWithCode err code msg ⟨CleanFileName caller.file, caller.line, function⟩) ∧
    WrapIntoCall CleanFileName dir (caller :: rest) err msg
      = (cleanFuncName caller.function).map
          (fun function => WrapInto err msg ⟨CleanFileName caller.file, caller.line, function⟩) ∧
    (∀ (stack : List Frame) (skip : Nat) (frame : Frame), stack[skip + 1]? = some frame →
      capture CleanFileName stack skip
        = (cleanFuncName frame.function).map
            (fun function => (⟨CleanFileName frame.file, frame.line, function⟩ : Location))) ∧
    (∀ (stack : List Frame) (skip : Nat), stack.length ≤ skip + 1 →
      capture CleanFileName stack skip = some Location.zero) := by
  refine ⟨?_, ?_, ?_, ?_, ?_, ?_, capture_frame CleanFileName, capture_no_frame CleanFileName⟩
  · simp only [NewCall, captureFrom_caller, Option.map_map]; rfl
  · simp only [NewWithCodeCall, captureFrom_caller, Option.map_map]; rfl
  · simp only [WrapCall, h, if_false, captureFrom_caller, Option.map_map]
    congr 1; funext function; simp [Function.comp, Wrap, h]
  · simp only [AnnotateCall, h, if_false, captureFrom_caller, Option.map_map]
    congr 1; funext function; simp [Function.comp, Annotate, h]
  · simp only [WrapWithCodeCall, h, if_false, captureFrom_caller, Option.map_map]
    congr 1; funext function; simp [Function.comp, WrapWithCode, h]
  · simp only [WrapIntoCall, h, if_false, captureFrom_caller, Option.map_map]
    congr 1; funext function; simp [Function.comp, WrapInto, h]

set_option maxRecDepth 8000 in
/-- Witness of C15: `Wrap` called from the pointer-receiver method of
`TestWrap_MethodNames`, at line 27 of `testdata_test.go`. -/
theorem constructors_capture_caller_witness :
    WrapCall (fun file => file.drop 8) "/go/src/terror/"
        [⟨"/go/src/terror/testdata_test.go", 27, "github.com/Tanium-OSS/terror.(*SomeType).wrapPtr"⟩,
         ⟨"/go/src/terror/errors_test.go", 141, "github.com/Tanium-OSS/terror.TestWrap_MethodNames"⟩]
        (foreign "some error") "checking pointer receiver"
      = some (terror (foreign "some error") "checking pointer receiver"
          ⟨"terror/testdata_test.go", 27, "SomeType.wrapPtr"⟩) :=
  ((constructors_capture_caller (fun file => file.drop 8) "/go/src/terror/"
      ⟨"/go/src/terror/testdata_test.go", 27, "github.com/Tanium-OSS/terror.(*SomeType).wrapPtr"⟩
      [⟨"/go/src/terror/errors_test.go", 141, "github.com/Tanium-OSS/terror.TestWrap_MethodNames"⟩]
      (foreign "some error") 0 "checking pointer receiver" (by decide)).2.2.1).trans (by decide)

/-! ## C16, C17: closing and appending -/

set_option maxRecDepth 8000 in
theorem cleanFuncName_closeAndAppend :
    cleanFuncName (importPath ++ "." ++ "CloseAndAppendOnError") = some "CloseAndAppendOnError" := by
  decide

/-- What `CloseAndAppendOnError` leaves: the slot after `appendInto` of the
close result wrapped at `closer.go:17`, and the closer after one `Close`. -/
theorem closeAndAppendOnError_eq {σ : Type} (CleanFileName : String → String) (dir : String)
    (stack : List Frame) (pErr : List GoError) (Close : σ → GoError × σ) (c : σ) (msg : String) :
    CloseAndAppendOnError CleanFileName dir stack pErr Close c msg
      = some (appendInto pErr (Wrap (Close c).1 msg (closerGoLine17 CleanFileName dir)),
          (Close c).2) := by
  unfold CloseAndAppendOnError
  by_cases h : (Close c).1 = nil
  · simp [WrapCall, Wrap, h]
  · simp only [WrapCall, h, if_false, captureFrom_caller, pkgFrame, cleanFuncName_closeAndAppend,
      Option.map_some', Wrap, closerGoLine17]

theorem intercalate_append_singleton (s x : String) (l : List String) (h : l ≠ []) :
    s.intercalate (l ++ [x]) = s.intercalate l ++ s ++ x := by
  induction l with
  | nil => exact absurd rfl h
  | cons a rest ih =>
    by_cases hr : rest = []
    · subst hr
      simp [String.intercalate, String.intercalate.go]
    · rw [List.cons_append, intercalate_cons_of_ne_nil s a (rest ++ [x]) (by simp), ih hr,
        intercalate_cons_of_ne_nil s a rest hr]
      simp only [String.append_assoc]

theorem aggregateError_append (slot : List GoError) (err : GoError) (h : slot ≠ []) :
    aggregateError (slot ++ [err]) = aggregateError slot ++ "; " ++ err.Error := by
  unfold aggregateError
  rw [List.map_append, List.map_singleton, intercalate_append_singleton _ _ _ (by simpa using h)]

/-- C16, amended: `CloseAndAppendOnError` calls `Close` exactly once and leaves
the slot equal to `appendInto(old slot, Wrap(close result, message))`: unchanged
when `Close` succeeds; holding the wrapped close failure when the slot was
empty; and when the slot held an error and `Close` failed, the pre-existing
errors first and the wrapped close failure last, with the compact rendering
`old + "; " + message + ": " + closeErr` for a non-empty message and
`old + "; " + closeErr` for the empty one. -/
theorem closeAndAppend_slot {σ : Type} (CleanFileName : String → String) (dir : String)
    (stack : List Frame) (pErr : List GoError) (Close : σ → GoError × σ) (c : σ) (n : Nat)
    (msg : String) :
    CloseAndAppendOnError CleanFileName dir stack pErr (countCalls Close) (c, n) msg
      = some (appendInto pErr (Wrap (Close c).1 msg (closerGoLine17 CleanFileName dir)),
          ((Close c).2, n + 1)) ∧
    ((Close c).1 = nil →
      CloseAndAppendOnError CleanFileName dir stack pErr Close c msg = some (pErr, (Close c).2)) ∧
    ((Close c).1 ≠ nil →
      CloseAndAppendOnError CleanFileName dir stack [] Close c msg
        = some ([terror (Close c).1 msg (closerGoLine17 CleanFileName dir)], (Close c).2) ∧
      CloseAndAppendOnError CleanFileName dir stack pErr Close c msg
        = some (pErr ++ [terror (Close c).1 msg (closerGoLine17 CleanFileName dir)], (Close c).2) ∧
      (pErr ≠ [] → msg ≠ "" →
        aggregateError (pErr ++ [terror (Close c).1 msg (closerGoLine17 CleanFileName dir)])
          = aggregateError pErr ++ "; " ++ (msg ++ ": " ++ (Close c).1.Error)) ∧
      (pErr ≠ [] → msg = "" →
        aggregateError (pErr ++ [terror (Close c).1 msg (closerGoLine17 CleanFileName dir)])
          = aggregateError pErr ++ "; " ++ (Close c).1.Error)) := by
  refine ⟨?_, ?_, ?_⟩
  · rw [closeAndAppendOnError_eq]; rfl
  · intro h
    rw [closeAndAppendOnError_eq, h]; rfl
  · intro h
    refine ⟨?_, ?_, ?_, ?_⟩
    · rw [closeAndAppendOnError_eq, wrap_of_ne_nil _ _ _ h]; rfl
    · rw [closeAndAppendOnError_eq, wrap_of_ne_nil _ _ _ h]; simp [appendInto]
    · intro hp hm
      rw [aggregateError_append _ _ hp, error_terror _ _ _ h, if_neg hm]
    · intro hp hm
      rw [aggregateError_append _ _ hp, error_terror _ _ _ h, if_pos hm]

set_option maxRecDepth 8000 in
/-- Witness of C16: `ExampleCloseAndAppendOnError`, where the slot holds the
wrapped failure of the first use and `Close` fails. -/
theorem closeAndAppend_slot_witness :
    aggregateError ([Wrap (foreign "could not use") "first use"
          ⟨"terror/closer_test.go", 37, "ExampleCloseAndAppendOnError.func1"⟩] ++
        [terror (foreign "could not close") "close file" (closerGoLine17 id "terror/")])
      = "first use: could not use; close file: could not close" :=
  (((closeAndAppend_slot id "terror/" []
      [Wrap (foreign "could not use") "first use"
        ⟨"terror/closer_test.go", 37, "ExampleCloseAndAppendOnError.func1"⟩]
      (fun (_ : Unit) => (foreign "could not close", ())) () 0 "close file").2.2
      (by decide)).2.2.1 (by decide) (by decide)).trans (by decide)

set_option maxRecDepth 8000 in
/-- C16 as stated fails for the empty message, the one the tests of
`closer_test.go` pass: with "sadness" in the slot and a closer failing with
"badness", the slot renders as `sadness; badness`, not as
`"sadness" + "; " + "" + ": " + "badness"`. -/
theorem closeAndAppend_slot_counterexample :
    (CloseAndAppendOnError id "terror/" [] [foreign "sadness"]
        (fun (_ : Unit) => (foreign "badness", ())) () "").map (fun r => aggregateError r.1)
      = some "sadness; badness" ∧
    (CloseAndAppendOnError id "terror/" [] [foreign "sadness"]
        (fun (_ : Unit) => (foreign "badness", ())) () "").map (fun r => aggregateError r.1)
      ≠ some ("sadness" ++ "; " ++ "" ++ ": " ++ "badness") := by
  rw [closeAndAppendOnError_eq]
  constructor <;> decide

set_option maxRecDepth 8000 in
/-- C17 on the code: in `ExampleCloseAndAppendOnError` the caller is the closure
at `closer_test.go`, yet the node appended for the failed `Close` carries
`closer.go:17 (CloseAndAppendOnError)`, the place inside the library where
`Wrap` is called, and not the location of the caller. -/
theorem closeAndAppend_location :
    CloseAndAppendOnError id "terror/"
        [⟨"terror/closer_test.go", 37, "github.com/Tanium-OSS/terror.ExampleCloseAndAppendOnError.func1"⟩]
        [] (fun (_ : Unit) => (foreign "could not close", ())) () "close file"
      = some ([terror (foreign "could not close") "close file"
          ⟨"terror/closer.go", 17, "CloseAndAppendOnError"⟩], ()) ∧
    WrapIntoCall id "terror/"
        [⟨"terror/closer_test.go", 37, "github.com/Tanium-OSS/terror.ExampleCloseAndAppendOnError.func1"⟩]
        (foreign "could not close") "close file"
      = some (terror (foreign "could not close") "close file"
          ⟨"terror/closer_test.go", 37, "ExampleCloseAndAppendOnError.func1"⟩) := by
  constructor
  · rw [closeAndAppendOnError_eq]; decide
  · decide

/-! ## C18: closing and logging -/

theorem appendInto_eq_append_combine (err : List GoError) (e : GoError) :
    appendInto err e = err ++ combine [e] := by
  by_cases h : e = nil <;> simp [appendInto, combine, h]

theorem combine_cons (e : GoError) (es : List GoError) :
    combine (e :: es) = combine [e] ++ combine es := by
  by_cases h : e = nil <;> simp [combine, h]

theorem closeLoop_eq {σ : Type} (closers : List (σ → GoError × σ)) :
    ∀ (err : List GoError) (s : σ),
      closeLoop closers err s
        = (err ++ combine (runClosers closers s).1, (runClosers closers s).2) := by
  induction closers with
  | nil => intro err s; simp [closeLoop, runClosers, combine]
  | cons closer rest ih =>
    intro err s
    simp only [closeLoop, runClosers, ih, appendInto_eq_append_combine, List.append_assoc]
    rw [combine_cons (closer s).1 (runClosers rest (closer s).2).1]

theorem runClosers_traced (results : List GoError) :
    ∀ (k : Nat) (trace : List Nat),
      runClosers ((results.enumFrom k).map (fun r => fun t : List Nat => (r.2, t ++ [r.1]))) trace
        = (results, trace ++ List.range' k results.length) := by
  induction results with
  | nil => intro k trace; simp [runClosers]
  | cons e rest ih =>
    intro k trace
    simp only [List.enumFrom_cons, List.map_cons, runClosers, ih, List.length_cons,
      List.range'_succ, List.append_assoc, List.singleton_append]

/-- C18: `CloseAndLogOnError` closes every closer of the list exactly once, in
order, each on the state the one before left, whatever the earlier results;
it calls the log function once, with the aggregate of the failures in order,
when at least one `Close` failed, and not at all when none did; with closers
failing with "badness" and "badness2" and a third that succeeds, the logged
error renders as the combination of the two failures. -/
theorem closeAndLog {σ : Type} (closers : List (σ → GoError × σ)) (s : σ) :
    CloseAndLogOnError closers s
      = (if combine (runClosers closers s).1 = [] then []
         else [⟨"Close operation failed with error: %+v", combine (runClosers closers s).1⟩],
         (runClosers closers s).2) ∧
    (∀ results : List GoError,
      (runClosers (tracedClosers results) []).1 = results ∧
      (CloseAndLogOnError (tracedClosers results) []).2 = List.range results.length) ∧
    CloseAndLogOnError (tracedClosers [foreign "badness", foreign "badness2", nil]) []
      = ([⟨"Close operation failed with error: %+v", [foreign "badness", foreign "badness2"]⟩],
         [0, 1, 2]) ∧
    (∀ l1 l2 : Location,
      aggregateError [foreign "badness", foreign "badness2"]
        = aggregateError (combine [New "badness" l1, New "badness2" l2])) := by
  have main : ∀ (cs : List (σ → GoError × σ)) (t : σ), CloseAndLogOnError cs t
      = (if combine (runClosers cs t).1 = [] then []
         else [⟨"Close operation failed with error: %+v", combine (runClosers cs t).1⟩],
         (runClosers cs t).2) := by
    intro cs t
    unfold CloseAndLogOnError
    simp only [closeLoop_eq, List.nil_append]
    by_cases h : combine (runClosers cs t).1 = [] <;> simp [h]
  refine ⟨main closers s, ?_, by decide, ?_⟩
  · intro results
    have ht := runClosers_traced results 0 []
    have he : tracedClosers results
        = (results.enumFrom 0).map (fun r => fun t : List Nat => (r.2, t ++ [r.1])) := rfl
    unfold CloseAndLogOnError
    simp only [closeLoop_eq, he, ht, List.nil_append]
    refine ⟨trivial, ?_⟩
    have hr : List.range' 0 results.length = List.range results.length :=
      (List.range_eq_range' results.length).symm
    by_cases h : combine results = [] <;> simp [h, hr]
  · intro l1 l2
    simp [aggregateError, combine, New, GoError.Error]

/-! ## C19: what `cleanFuncName` keeps -/

theorem stringsIndex_append_cons (c : Char) (b : List Char) :
    ∀ a : List Char, c ∉ a → stringsIndex c (a ++ c :: b) = a.length := by
  intro a
  induction a with
  | nil => intro _; simp [stringsIndex]
  | cons x a ih =>
    intro h
    have hx : x ≠ c := fun e => h (by simp [e])
    have ha : c ∉ a := fun e => h (by simp [e])
    have hi := ih ha
    have hn : ¬ ((a.length : Int) < 0) := by omega
    show (if x = c then (0 : Int)
      else if stringsIndex c (a ++ c :: b) < 0 then -1
      else stringsIndex c (a ++ c :: b) + 1) = ((a.length + 1 : Nat) : Int)
    rw [if_neg hx, hi, if_neg hn]
    push_cast
    rfl

theorem stringsLastIndex_of_not_mem (c : Char) :
    ∀ b : List Char, c ∉ b → stringsLastIndex c b = -1 := by
  intro b
  induction b with
  | nil => intro _; rfl
  | cons x b ih =>
    intro h
    have hx : x ≠ c := fun e => h (by simp [e])
    have hb : c ∉ b := fun e => h (by simp [e])
    simp [stringsLastIndex, ih hb, hx]

theorem stringsLastIndex_append_cons (c : Char) (b : List Char) (hb : c ∉ b) :
    ∀ a : List Char, stringsLastIndex c (a ++ c :: b) = a.length := by
  intro a
  induction a with
  | nil => simp [stringsLastIndex, stringsLastIndex_of_not_mem c b hb]
  | cons x a ih =>
    have hn : (0 : Int) ≤ (a.length : Int) := by omega
    show (if 0 ≤ stringsLastIndex c (a ++ c :: b) then stringsLastIndex c (a ++ c :: b) + 1
      else if x = c then 0 else -1) = ((a.length + 1 : Nat) : Int)
    rw [ih, if_pos hn]
    push_cast
    rfl

theorem sliceFrom_append_cons (a : List Char) (c : Char) (b : List Char) :
    sliceFrom (a ++ c :: b) ((a.length : Int) + 1) = some b := by
  have h1 : (0 : Int) ≤ (a.length : Int) + 1 ∧
      (a.length : Int) + 1 ≤ ((a ++ c :: b).length : Int) := by
    simp only [List.length_append, List.length_cons]
    omega
  have h2 : ((a.length : Int) + 1).toNat = a.length + 1 := by omega
  have h3 : List.drop (a.length + 1) (a ++ c :: b) = b := by
    rw [show a ++ c :: b = (a ++ [c]) ++ b by simp]
    exact List.drop_left' (by simp)
  simp only [sliceFrom, h1, and_self, if_true, h2, h3]

theorem sliceBetween_append_cons (a : List Char) (c : Char) (b : List Char) (k : Nat)
    (hk : k ≤ a.length) :
    sliceBetween (a ++ c :: b) k a.length = some (a.drop k) := by
  have h1 : (0 : Int) ≤ (k : Int) ∧ (k : Int) ≤ (a.length : Int) ∧
      (a.length : Int) ≤ ((a ++ c :: b).length : Int) := by
    simp only [List.length_append, List.length_cons]
    omega
  have h3 : List.take a.length (a ++ c :: b) = a := List.take_left' rfl
  simp only [sliceBetween, h1, and_self, if_true, Int.toNat_ofNat, h3]

/-- The path and the package qualifier go: what is left of
`p + "/" + pkg + "." + rest` after the first two statements is `rest`. -/
theorem withoutPackage_eq (p pkg rest : List Char)
    (h1 : '/' ∉ pkg) (h2 : '.' ∉ pkg) (h3 : '/' ∉ rest) :
    sliceFrom (p ++ '/' :: (pkg ++ '.' :: rest))
        (stringsLastIndex '/' (p ++ '/' :: (pkg ++ '.' :: rest)) + 1) = some (pkg ++ '.' :: rest) ∧
    sliceFrom (pkg ++ '.' :: rest) (stringsIndex '.' (pkg ++ '.' :: rest) + 1) = some rest := by
  have hq : '/' ∉ pkg ++ '.' :: rest := by
    intro h
    rcases List.mem_append.mp h with e | e
    · exact h1 e
    · rcases List.mem_cons.mp e with e | e
      · revert e; decide
      · exact h3 e
  rw [stringsLastIndex_append_cons '/' _ hq p, stringsIndex_append_cons '.' rest pkg h2]
  exact ⟨sliceFrom_append_cons p '/' _, sliceFrom_append_cons pkg '.' rest⟩

theorem cleanFuncName_data (longName : String) (p pkg rest : List Char)
    (hd : longName.data = p ++ '/' :: (pkg ++ '.' :: rest))
    (h1 : '/' ∉ pkg) (h2 : '.' ∉ pkg) (h3 : '/' ∉ rest) :
    cleanFuncName longName
      = (rest.head?).bind (fun first =>
          if first = '(' then
            (sliceBetween rest 2 (stringsIndex ')' rest)).bind (fun left =>
              (sliceFrom rest (stringsIndex ')' rest + 1)).bind (fun right =>
                some (String.mk (left ++ right))))
          else some (String.mk rest)) := by
  obtain ⟨e1, e2⟩ := withoutPackage_eq p pkg rest h1 h2 h3
  unfold cleanFuncName
  rw [hd]
  simp only [bind, e1, e2, Option.bind]

/-- C19: `cleanFuncName` removes the import path and the package qualifier: on
`p + "/" + pkg + "." + rest`, where `pkg` has no `.` and no `/` and `rest` is
non-empty with no `/`, it returns `rest` when `rest` does not start with `(`,
and `R + tail` when `rest` is `"(*" + R + ")" + tail` with no `)` in `R`. -/
theorem cleanFuncName_strips (p pkg rest : String)
    (h1 : '/' ∉ pkg.data) (h2 : '.' ∉ pkg.data) (h3 : '/' ∉ rest.data) (h4 : rest ≠ "") :
    (rest.data.head? ≠ some '(' → cleanFuncName (p ++ "/" ++ pkg ++ "." ++ rest) = some rest) ∧
    (∀ R tail : String, rest = "(*" ++ R ++ ")" ++ tail → ')' ∉ R.data →
      cleanFuncName (p ++ "/" ++ pkg ++ "." ++ rest) = some (R ++ tail)) := by
  have hd : (p ++ "/" ++ pkg ++ "." ++ rest).data = p.data ++ '/' :: (pkg.data ++ '.' :: rest.data) := by
    simp [String.data_append]
  have hc := cleanFuncName_data _ p.data pkg.data rest.data hd h1 h2 h3
  constructor
  · intro hfirst
    rw [hc]
    cases hr : rest.data with
    | nil => exact absurd (String.ext hr) h4
    | cons x xs =>
      have hx : x ≠ '(' := by
        intro e; apply hfirst; rw [hr, e]; rfl
      have : String.mk (x :: xs) = rest := by rw [← hr]
      simp [hx, this]
  · intro R tail hrest hR
    rw [hc]
    have hdata : rest.data = ('(' :: '*' :: R.data) ++ ')' :: tail.data := by
      rw [hrest]; simp [String.data_append]
    have hnot : ')' ∉ '(' :: '*' :: R.data := by
      intro e
      rcases List.mem_cons.mp e with e | e
      · revert e; decide
      · rcases List.mem_cons.mp e with e | e
        · revert e; decide
        · exact hR e
    have hi : stringsIndex ')' rest.data = (('(' :: '*' :: R.data).length : Int) := by
      rw [hdata]; exact stringsIndex_append_cons ')' tail.data _ hnot
    have hl : sliceBetween rest.data 2 (stringsIndex ')' rest.data) = some R.data := by
      rw [hi, hdata]
      have := sliceBetween_append_cons ('(' :: '*' :: R.data) ')' tail.data 2 (by simp)
      simpa using this
    have hr : sliceFrom rest.data (stringsIndex ')' rest.data + 1) = some tail.data := by
      rw [hi, hdata]; exact sliceFrom_append_cons _ ')' tail.data
    rw [hl, hr]
    have hh : rest.data.head? = some '(' := by rw [hdata]; rfl
    rw [hh]
    simp only [Option.bind, if_true]
    congr 1

set_option maxRecDepth 8000 in
/-- Witness of C19: the three names of the comment above `cleanFuncName`. -/
theorem cleanFuncName_strips_witness :
    cleanFuncName "github.com/foo/bar/package.FuncName" = some "FuncName" ∧
    cleanFuncName "github.com/foo/bar/package.Receiver.MethodName" = some "Receiver.MethodName" ∧
    cleanFuncName "github.com/foo/bar/package.(*PtrReceiver).MethodName"
      = some "PtrReceiver.MethodName" :=
  ⟨(cleanFuncName_strips "github.com/foo/bar" "package" "FuncName"
      (by decide) (by decide) (by decide) (by decide)).1 (by decide),
   (cleanFuncName_strips "github.com/foo/bar" "package" "Receiver.MethodName"
      (by decide) (by decide) (by decide) (by decide)).1 (by decide),
   (cleanFuncName_strips "github.com/foo/bar" "package" "(*PtrReceiver).MethodName"
      (by decide) (by decide) (by decide) (by decide)).2 "PtrReceiver" ".MethodName"
      (by decide) (by decide)⟩

/-! ## C20: the message of a root -/

/-- C20, amended: the node returned by `New` (and the node under the code
returned by `NewWithCode`) has no cause and carries exactly the formatted
message; the message is non-empty exactly when the formatted text is, and
nothing in the constructors rejects the empty one. -/
theorem new_root (code : Int) (msg : String) (loc : Location) :
    Unwrap (New msg loc) = nil ∧
    (New msg loc).msg? = some msg ∧
    Unwrap (NewWithCode code msg loc) = New msg loc ∧
    ((New msg loc).msg? ≠ some "" ↔ msg ≠ "") := by
  refine ⟨rfl, rfl, rfl, ?_⟩
  simp [New, GoError.msg?]

/-- C20 as stated fails: `New("")`, whose formatted message `fmt.Sprintf("")` is
the empty string, returns a node with no cause and an empty message, and so
does `NewWithCode(7, "")` under its code. -/
theorem new_root_counterexample :
    Unwrap (New "" ⟨"main.go", 7, "main"⟩) = nil ∧
    (New "" ⟨"main.go", 7, "main"⟩).msg? = some "" ∧
    (Unwrap (NewWithCode 7 "" ⟨"main.go", 7, "main"⟩)).msg? = some "" ∧
    ¬ ∀ (msg : String) (loc : Location), (New msg loc).msg? ≠ some "" := by
  refine ⟨rfl, rfl, rfl, ?_⟩
  intro hall
  exact hall "" ⟨"main.go", 7, "main"⟩ rfl

/-! ## C21: code lookup on an aggregate -/

/-- C22: a pure marker with a captured location whose cause is not a pure marker
renders its location line and, on the next line, "caused by " followed by the
rendering of the cause; a node with neither a message nor a captured location
renders as its cause alone, with no "caused by " and no newline before it; and
a node writes "caused by " only after a line of its own: for every node the
rendering is its own lines followed, when the cause is there, by the separator
and the cause, where "caused by " stands between them exactly when the node has
a message or a location and the cause is not an empty-message chain node. -/
theorem causedBy_visible (fprintf : String → GoError → String) (base : GoError) (msg : String)
    (loc : Location) :
    (msg = "" → loc ≠ Location.zero → base ≠ nil → isTErrorNoMsg base = false →
      TError.detailedError fprintf base msg loc
        = locationLine loc ++ "\n" ++ "caused by " ++ fmtPlusV fprintf base) ∧
    (msg = "" → loc = Location.zero → base ≠ nil →
      TError.detailedError fprintf base msg loc = fmtPlusV fprintf base) ∧
    (msg = "" → loc = Location.zero → base = nil → TError.detailedError fprintf base msg loc = "") ∧
    (base ≠ nil →
      TError.detailedError fprintf base msg loc
        = (if msg = "" then (if loc = Location.zero then "" else locationLine loc)
           else (if loc = Location.zero then msg else msg ++ "\n" ++ locationLine loc)) ++
          (if msg = "" ∧ loc = Location.zero then "" else "\n") ++
          (if (msg ≠ "" ∨ loc ≠ Location.zero) ∧ isTErrorNoMsg base = false then "caused by "
           else "") ++
          fmtPlusV fprintf base) := by
  have e0 : ∀ s : String, "" ++ s = s := by intro s; apply String.ext; simp
  have e1 : ∀ s : String, s ++ "" = s := by intro s; apply String.ext; simp
  have hn : ¬ ("\n" : String) = "" := by decide
  refine ⟨?_, ?_, ?_, ?_⟩
  · intro hm hl hb hp
    simp only [TError.detailedError, detailedErrorWith, locationLine, hm, hl, hb, hp, hn, ne_eq,
      not_true_eq_false, not_false_eq_true, if_true, if_false, e0, e1, Bool.false_eq_true,
      String.append_assoc]
  · intro hm hl hb
    by_cases hp : isTErrorNoMsg base = true <;>
      simp only [TError.detailedError, detailedErrorWith, hm, hl, hb, hp, ne_eq,
        not_true_eq_false, not_false_eq_true, if_true, if_false, e0, e1, Bool.false_eq_true]
  · intro hm hl hb
    subst hb
    have hnil : isTErrorNoMsg nil = false := rfl
    simp only [TError.detailedError, detailedErrorWith, hm, hl, hnil, ne_eq,
      not_true_eq_false, not_false_eq_true, if_true, if_false, Bool.false_eq_true]
  · intro hb
    by_cases hm : msg = "" <;> by_cases hl : loc = Location.zero <;>
      by_cases hp : isTErrorNoMsg base = true <;>
      simp only [TError.detailedError, detailedErrorWith, locationLine, hm, hl, hb, hp, hn, ne_eq,
        not_true_eq_false, not_false_eq_true, if_true, if_false, e0, e1, Bool.false_eq_true,
        Bool.true_eq_false, and_true, and_false, or_true, or_false, and_self, or_self,
        true_and, false_and, String.append_assoc]

set_option maxRecDepth 8000 in
/-- Witness of C22: the outermost frame of the last chain of `TestWrap`, a pure
marker over a wrap with a message, and the same wrap under a node with neither
message nor location. -/
theorem causedBy_visible_witness :
    TError.detailedError fprintfError
        (terror (foreign "some error") "trying something"
          ⟨"terror/testdata_test.go", 13, "tryButFail"⟩)
        "" ⟨"terror/testdata_test.go", 16, "wrapNoMessage"⟩
      = " --- at terror/testdata_test.go:16 (wrapNoMessage) ---\n" ++
        "caused by trying something\n --- at terror/testdata_test.go:13 (tryButFail) ---\n" ++
        "caused by some error" ∧
    TError.detailedError fprintfError
        (terror (foreign "some error") "trying something"
          ⟨"terror/testdata_test.go", 13, "tryButFail"⟩)
        "" Location.zero
      = "trying something\n --- at terror/testdata_test.go:13 (tryButFail) ---\n" ++
        "caused by some error" :=
  ⟨((causedBy_visible fprintfError _ "" ⟨"terror/testdata_test.go", 16, "wrapNoMessage"⟩).1 rfl (by decide)
      (by decide) (by decide)).trans (by decide),
   ((causedBy_visible fprintfError _ "" Location.zero).2.1 rfl rfl (by decide)).trans (by decide)⟩

/-! ## C23: where `cleanFuncName` panics -/

theorem stripCodes_cause (base : GoError) (h : noCodedMarkerCause (terror base "" Location.zero) = true) :
    isTErrorNoMsg (stripCodes base) = isTErrorNoMsg base ∧ (stripCodes base = nil ↔ base = nil) := by
  cases base with
  | nil => exact ⟨rfl, Iff.rfl⟩
  | foreign t => exact ⟨rfl, Iff.rfl⟩
  | wrapper t inner => exact ⟨rfl, Iff.rfl⟩
  | terror b m l => exact ⟨rfl, by simp [stripCodes]⟩
  | coded inner k =>
    simp only [noCodedMarkerCause, Bool.and_eq_true, Bool.not_eq_true', decide_eq_true_eq] at h
    obtain ⟨h1, h2, _⟩ := h
    exact ⟨by simpa [stripCodes, isTErrorNoMsg] using h1, by simpa [stripCodes] using h2⟩

/-- Away from the one case that `detailedError` misses, codes are invisible: when
no chain node has for cause a coded node over an empty-message chain node, the
chain without its codes has the same detailed rendering. -/
theorem stripCodes_fmtPlusV (fprintf : String → GoError → String) (e : GoError) :
    noCodedMarkerCause e = true → fmtPlusV fprintf (stripCodes e) = fmtPlusV fprintf e := by
  induction e with
  | nil => intro _; rfl
  | foreign t => intro _; rfl
  | wrapper t inner _ => intro _; rfl
  | coded base code ih =>
    intro h
    simp only [noCodedMarkerCause, Bool.and_eq_true] at h
    exact ih h.2
  | terror base msg loc ih =>
    intro h
    have hb : noCodedMarkerCause base = true := by
      simp only [noCodedMarkerCause, Bool.and_eq_true] at h
      exact h.2
    have hz : noCodedMarkerCause (terror base "" Location.zero) = true := by
      simp only [noCodedMarkerCause, Bool.and_eq_true] at h ⊢
      exact h
    obtain ⟨h1, h2⟩ := stripCodes_cause base hz
    have hne : (stripCodes base ≠ nil) ↔ (base ≠ nil) := not_congr h2
    simp only [stripCodes, fmtPlusV, detailedErrorWith, ih hb, h1, hne]

set_option maxRecDepth 8000 in
/-- C24 on the code: with `WrapWithCode(New("some error"), 5, "")` as the cause
of a `Wrap`, the detailed rendering writes "caused by " before the location
line of the coded pure marker, because the cause is a `codeError` and not a
`TError`; the same chain with the coded node replaced by its chain node writes
the two location lines one under the other. The two renderings differ. -/
theorem coded_marker_rendering (fprintf : String → GoError → String) :
    stripCodes (Wrap (WrapWithCode (New "some error" ⟨"main.go", 3, "run"⟩) 5 ""
        ⟨"main.go", 9, "load"⟩) "outer" ⟨"main.go", 15, "main"⟩)
      = Wrap (Wrap (New "some error" ⟨"main.go", 3, "run"⟩) "" ⟨"main.go", 9, "load"⟩)
          "outer" ⟨"main.go", 15, "main"⟩ ∧
    fmtPlusV fprintf (Wrap (WrapWithCode (New "some error" ⟨"main.go", 3, "run"⟩) 5 ""
        ⟨"main.go", 9, "load"⟩) "outer" ⟨"main.go", 15, "main"⟩)
      = "outer\n --- at main.go:15 (main) ---\n" ++
        "caused by  --- at main.go:9 (load) ---\n" ++
        "caused by some error\n --- at main.go:3 (run) ---" ∧
    fmtPlusV fprintf (Wrap (Wrap (New "some error" ⟨"main.go", 3, "run"⟩) "" ⟨"main.go", 9, "load"⟩)
        "outer" ⟨"main.go", 15, "main"⟩)
      = "outer\n --- at main.go:15 (main) ---\n" ++
        " --- at main.go:9 (load) ---\n" ++
        "caused by some error\n --- at main.go:3 (run) ---" ∧
    fmtPlusV fprintf (Wrap (WrapWithCode (New "some error" ⟨"main.go", 3, "run"⟩) 5 ""
        ⟨"main.go", 9, "load"⟩) "outer" ⟨"main.go", 15, "main"⟩)
      ≠ fmtPlusV fprintf (stripCodes (Wrap (WrapWithCode (New "some error" ⟨"main.go", 3, "run"⟩) 5 ""
        ⟨"main.go", 9, "load"⟩) "outer" ⟨"main.go", 15, "main"⟩)) := by
  refine ⟨by decide, rfl, rfl, ?_⟩
  have h1 : fmtPlusV fprintf (Wrap (WrapWithCode (New "some error" ⟨"main.go", 3, "run"⟩) 5 ""
        ⟨"main.go", 9, "load"⟩) "outer" ⟨"main.go", 15, "main"⟩)
      = "outer\n --- at main.go:15 (main) ---\n" ++
        "caused by  --- at main.go:9 (load) ---\n" ++
        "caused by some error\n --- at main.go:3 (run) ---" := rfl
  have h2 : fmtPlusV fprintf (stripCodes (Wrap (WrapWithCode (New "some error"
        ⟨"main.go", 3, "run"⟩) 5 "" ⟨"main.go", 9, "load"⟩) "outer" ⟨"main.go", 15, "main"⟩))
      = "outer\n --- at main.go:15 (main) ---\n" ++
        " --- at main.go:9 (load) ---\n" ++
        "caused by some error\n --- at main.go:3 (run) ---" := rfl
  rw [h1, h2]
  decide

/-! ## C25: the compact rendering and the stack -/

theorem eraseStack_eq_nil (e : GoError) : eraseStack e = nil ↔ e = nil := by
  cases e <;> simp [eraseStack]

theorem error_eraseStack (e : GoError) : (eraseStack e).Error = e.Error := by
  induction e with
  | nil => rfl
  | foreign t => rfl
  | wrapper t inner _ => rfl
  | terror base msg loc ih =>
    simp only [eraseStack, GoError.Error, eraseStack_eq_nil, ih]
  | coded base code ih =>
    simp only [eraseStack, GoError.Error, ih]

/-- C25: two chains of chain nodes and coded nodes that have the same shape, the
same messages and the same root or foreign leaf, and differ only in the
captured locations and in the codes, have the same compact rendering. -/
theorem error_ignores_stack (e1 e2 : GoError) (h : eraseStack e1 = eraseStack e2) :
    e1.Error = e2.Error := by
  rw [← error_eraseStack e1, ← error_eraseStack e2, h]

/-- Witness of C25: the chain of `Example` built at two different sets of call
sites and with two different codes. -/
theorem error_ignores_stack_witness :
    (Wrap (WrapWithCode (foreign "no such file") 123 "loading config"
        ⟨"terror/example_test.go", 14, "ReadConfig"⟩) "initializing system"
        ⟨"terror/example_test.go", 21, "InitializeSystem"⟩).Error
      = (Wrap (WrapWithCode (foreign "no such file") 7 "loading config"
        ⟨"other/config.go", 88, "Load"⟩) "initializing system"
        ⟨"other/system.go", 5, "Init"⟩).Error :=
  error_ignores_stack _ _ (by decide)

end Terror
